import Mathlib

/-!
Verification of the roster reconciliation engine of `src/enrollment.py`
(functions `generate_enrollment_roster` and `generate_enrollment_report`).

A roster snapshot is a CSV table: a list of column names plus one row per
student, each row an association list from column name to cell value.  A
snapshot read (`pd.read_csv`) either fails wholesale (modelled as `none`) or
yields the table.  Accessing a column that is absent from the table raises a
`KeyError`; the Python loops catch that exception, log and skip the rest of
the snapshot.  We model this with `Except`, where the error payload carries
the state as mutated up to the point of the exception, exactly as the Python
interpreter leaves it.
-/

namespace Enrollment

/-- One CSV row: association list from column name to cell value. -/
abbrev Row := List (String × String)

/-- Generic association-list lookup (first binding wins, like a Python dict
with unique keys). -/
def alookup {α : Type} : List (String × α) → String → Option α
  | [], _ => none
  | (k', v) :: m, k => if k' = k then some v else alookup m k

/-- Cell access `row[col]`; `none` models a `KeyError`. -/
abbrev getCell (r : Row) (c : String) : Option String := alookup r c

/-- Python dict assignment `m[k] = v`: replace the binding if the key is
present, append it otherwise. -/
def upsert {α : Type} : List (String × α) → String → α → List (String × α)
  | [], k, v => [(k, v)]
  | (k', v') :: m, k, v => if k' = k then (k, v) :: m else (k', v') :: upsert m k v

/-- First-some choice on options (`a` wins when it is `some`). -/
def ofirst {α : Type} : Option α → Option α → Option α
  | some v, _ => some v
  | none, b => b

/-- Python's `str.strip()`: remove leading and trailing whitespace.  (Defined
over the character list so that it evaluates by kernel reduction.) -/
def pyStrip (s : String) : String :=
  ⟨((s.data.dropWhile Char.isWhitespace).reverse.dropWhile Char.isWhitespace).reverse⟩

/-- A successfully parsed CSV table: the header (column names) and the rows. -/
structure Snapshot where
  cols : List String
  rows : List Row
  deriving DecidableEq

/-- A section timeline: the `(date, file)` pairs of `roster_files` in order,
each file paired with the result of reading it (`none` = `pd.read_csv`
raised). -/
abbrev Timeline := List (String × Option Snapshot)

/-! ## Lifecycle Reconciler: `generate_enrollment_roster`, lines 62-154 -/

/-- Running state of the reconciliation loop (lines 83-89). -/
structure RosterState where
  enrollment_dates : List (String × String)
  dropped_dates : List (String × String)
  student_records : List (String × Row)
  previous_students : List String
  deriving DecidableEq

/-- The body of `for _, row in df.iterrows()` (lines 97-104).  The state is
the pair (enrollment_dates, student_records); a `KeyError` from a missing
column aborts with the mutations applied so far. -/
def rosterRow (date_str : String)
    (st : List (String × String) × List (String × Row)) (row : Row) :
    Except (List (String × String) × List (String × Row))
      (List (String × String) × List (String × Row)) :=
  let (ed, sr) := st
  match getCell row "Campus ID" with
  | none => .error (ed, sr)
  | some campus_id =>
    let sr' := upsert sr campus_id row
    if alookup ed campus_id = none then
      match getCell row "Status" with
      | none => .error (ed, sr')
      | some st_val =>
        if st_val = "Enrolled" then .ok (ed ++ [(campus_id, date_str)], sr')
        else .ok (ed, sr')
    else .ok (ed, sr')

/-- The row loop of lines 97-104, propagating the first exception. -/
def rosterRows (date_str : String)
    (st : List (String × String) × List (String × Row)) :
    List Row →
    Except (List (String × String) × List (String × Row))
      (List (String × String) × List (String × Row))
  | [] => .ok st
  | r :: rest =>
    match rosterRow date_str st r with
    | .error e => .error e
    | .ok st' => rosterRows date_str st' rest

/-- Lines 108-110: record a first-disappearance date for each id in
`dropped_now` that has no date yet. -/
def recordDrops (date_str : String) (dd : List (String × String)) :
    List String → List (String × String)
  | [] => dd
  | campus_id :: rest =>
    if alookup dd campus_id = none then
      recordDrops date_str (dd ++ [(campus_id, date_str)]) rest
    else recordDrops date_str dd rest

/-- The ids present in a snapshot (`df["Campus ID"].tolist()`). -/
def snapshotIds (s : Snapshot) : List String :=
  s.rows.filterMap (fun r => getCell r "Campus ID")

/-- One iteration of the `for date_str, csv_file in roster_files` loop
(lines 92-114).  An unreadable file (`none`) runs the `except` branch, which
leaves the state untouched.  A `KeyError` inside the row loop, or at
`df["Campus ID"]` on line 106, likewise jumps to the `except` branch, but
keeps whatever mutations the row loop had already applied. -/
def rosterStep (st : RosterState) (date_str : String) :
    Option Snapshot → RosterState
  | none => st
  | some s =>
    match rosterRows date_str (st.enrollment_dates, st.student_records) s.rows with
    | .error (ed, sr) =>
      { st with enrollment_dates := ed, student_records := sr }
    | .ok (ed, sr) =>
      if "Campus ID" ∈ s.cols then
        let current_students := snapshotIds s
        let dropped_now :=
          st.previous_students.filter (fun cid => !(current_students.contains cid))
        { enrollment_dates := ed,
          dropped_dates := recordDrops date_str st.dropped_dates dropped_now,
          student_records := sr,
          previous_students := current_students }
      else
        { st with enrollment_dates := ed, student_records := sr }

/-- Run the reconciliation loop from a given state over a timeline. -/
def rosterRun (st : RosterState) (tl : Timeline) : RosterState :=
  tl.foldl (fun acc p => rosterStep acc p.1 p.2) st

/-- The state after the full loop of lines 92-114. -/
def rosterFold (tl : Timeline) : RosterState :=
  rosterRun ⟨[], [], [], []⟩ tl

/-- An output row of the enrollment roster: the CSV cells (a synthesized row
may carry nulls for columns its source row lacked) plus the two date columns
added on lines 122-123 / 137-138. -/
structure OutRow where
  cells : List (String × Option String)
  enrollment_date : Option String
  dropped_date : Option String
  deriving DecidableEq

/-- Python dict update `d[k] = v` on the synthesized `row_dict`
(lines 135-136): replace the value at the key if present, append otherwise. -/
def setCell (cells : List (String × Option String)) (k : String)
    (v : Option String) : List (String × Option String) :=
  if cells.any (fun p => p.1 = k) then
    cells.map (fun p => if p.1 = k then (k, v) else p)
  else cells ++ [(k, v)]

/-- The campus id carried by an output row. -/
def OutRow.campusId (r : OutRow) : Option String :=
  (alookup r.cells "Campus ID").bind id

/-- `generate_enrollment_roster` (lines 62-154), with the file-system output
abstracted away: the function returns the list of rows written to the
enrollment roster CSV, or `none` where the Python returns `None` (empty
`roster_files`, line 78; a failing re-read of the most recent file, lines
118-119/152; a `KeyError` at `df["Campus ID"]` on line 122/125). -/
def generate_enrollment_roster (roster_files : Timeline) :
    Option (List OutRow) :=
  if roster_files.isEmpty then none
  else
    let st := rosterFold roster_files
    match roster_files.getLast? with
    | none => none
    | some (_, none) => none
    | some (_, some s) =>
      if "Campus ID" ∈ s.cols then
        let baseRows := s.rows.map (fun r =>
          ({ cells := r.map (fun p => (p.1, some p.2)),
             enrollment_date :=
               (getCell r "Campus ID").bind (alookup st.enrollment_dates),
             dropped_date :=
               (getCell r "Campus ID").bind (alookup st.dropped_dates) } : OutRow))
        let current_ids := snapshotIds s
        let all_ids := st.student_records.map Prod.fst
        let missing_ids := all_ids.filter (fun cid => !(current_ids.contains cid))
        let extraRows := missing_ids.map (fun campus_id =>
          let base : Row := (alookup st.student_records campus_id).getD []
          let projected := s.cols.map (fun c => (c, getCell base c))
          ({ cells := setCell (setCell projected "Campus ID" (some campus_id))
                        "Status" (some "Dropped"),
             enrollment_date := alookup st.enrollment_dates campus_id,
             dropped_date := alookup st.dropped_dates campus_id } : OutRow))
        some (baseRows ++ extraRows)
      else none

/-! ## Event Log Builder: `generate_enrollment_report`, lines 157-303 -/

/-- The `(first_name, last_name, email)` tuple used in event lists. -/
abbrev Info := String × String × String

/-- One per-date event record (lines 219-226). -/
structure DateEvent where
  date : String
  new_students : List Info
  dropped_students : List Info
  withdrawn_students : List Info
  deriving DecidableEq

/-- The accumulators of the row loop on lines 188-210: the per-snapshot
`current_students`, `new_students`, `withdrawn_students`, plus the global
`withdrawn_students_set`. -/
structure ReportAcc where
  current_students : List (String × Info)
  new_students : List Info
  withdrawn_students : List Info
  withdrawn_set : List String
  deriving DecidableEq

/-- The `(first_name, last_name, email)` of a row, as read on lines
194-196. -/
def infoOf (r : Row) : Info :=
  ((getCell r "First Name").getD "", (getCell r "Last Name").getD "",
   (getCell r "Email Address").getD "")

/-- The body of the row loop on lines 192-210.  The five mandatory column
accesses (lines 193-197) happen before any mutation; `row.get("Status Notes", "")`
cannot raise. -/
def reportRow (previous_students : List (String × Info)) (acc : ReportAcc)
    (row : Row) : Except ReportAcc ReportAcc :=
  match getCell row "Campus ID" with
  | none => .error acc
  | some campus_id =>
  match getCell row "First Name" with
  | none => .error acc
  | some first_name =>
  match getCell row "Last Name" with
  | none => .error acc
  | some last_name =>
  match getCell row "Email Address" with
  | none => .error acc
  | some email =>
  match getCell row "Status" with
  | none => .error acc
  | some st_val =>
    let status_notes := pyStrip ((getCell row "Status Notes").getD "")
    let info : Info := (first_name, last_name, email)
    let acc := { acc with
      current_students := upsert acc.current_students campus_id info }
    let acc :=
      if (alookup previous_students campus_id).isNone ∧ st_val = "Enrolled" then
        { acc with new_students := acc.new_students ++ [info] }
      else acc
    let acc :=
      if status_notes = "Withdrawn" ∧ !(acc.withdrawn_set.contains campus_id) then
        { acc with withdrawn_students := acc.withdrawn_students ++ [info],
                   withdrawn_set := acc.withdrawn_set ++ [campus_id] }
      else acc
    .ok acc

/-- The row loop of lines 192-210, propagating the first exception. -/
def reportRows (previous_students : List (String × Info)) (acc : ReportAcc) :
    List Row → Except ReportAcc ReportAcc
  | [] => .ok acc
  | r :: rest =>
    match reportRow previous_students acc r with
    | .error e => .error e
    | .ok acc' => reportRows previous_students acc' rest

/-- Running state of the report loop (lines 178-182). -/
structure ReportState where
  previous_students : List (String × Info)
  withdrawn_set : List String
  events_by_date : List DateEvent
  deriving DecidableEq

/-- One iteration of the loop on lines 184-232.  An unreadable file leaves
the state untouched; a `KeyError` in the row loop keeps the mutations of the
global withdrawn set made before the exception, emits no event and leaves
`previous_students` unchanged. -/
def reportStep (st : ReportState) (date_str : String) :
    Option Snapshot → ReportState
  | none => st
  | some s =>
    match reportRows st.previous_students ⟨[], [], [], st.withdrawn_set⟩ s.rows with
    | .error acc => { st with withdrawn_set := acc.withdrawn_set }
    | .ok acc =>
      let dropped_students :=
        (st.previous_students.filter
          (fun p => (alookup acc.current_students p.1).isNone)).map Prod.snd
      { previous_students := acc.current_students,
        withdrawn_set := acc.withdrawn_set,
        events_by_date := st.events_by_date ++
          [⟨date_str, acc.new_students, dropped_students, acc.withdrawn_students⟩] }

/-- Run the report loop from a given state over a timeline. -/
def reportRun (st : ReportState) (tl : Timeline) : ReportState :=
  tl.foldl (fun acc p => reportStep acc p.1 p.2) st

/-- The event list accumulated by the loop of lines 184-232. -/
def reportEvents (tl : Timeline) : List DateEvent :=
  (reportRun ⟨[], [], []⟩ tl).events_by_date

/-- `generate_enrollment_report` (lines 157-303) with the PDF rendering
abstracted away: the function returns the ordered event records the PDF is
typeset from, or `none` where the Python returns `None` (empty
`roster_files` on line 173, or no events on line 235). -/
def generate_enrollment_report (roster_files : Timeline) :
    Option (List DateEvent) :=
  if roster_files.isEmpty then none
  else
    let evs := reportEvents roster_files
    if evs.isEmpty then none else some evs

/-! ## Specification-side notions

The spec's data model (sections 3 and 6 of the spec) guarantees that every
successfully read snapshot carries the required columns and has unique
student ids.  The predicates below make those guarantees explicit; the
positive claims are settled under them. -/

/-- A parsed CSV table is well formed: every row has exactly the header's
columns (pandas fills missing cells, so a data frame is always rectangular),
and student ids are unique within the snapshot (spec, section 3). -/
def Snapshot.WF (s : Snapshot) : Prop :=
  (∀ r ∈ s.rows, r.map Prod.fst = s.cols) ∧
    (s.rows.filterMap (fun r => getCell r "Campus ID")).Nodup

instance (s : Snapshot) : Decidable s.WF := by
  unfold Snapshot.WF; infer_instance

/-- The columns the Reconciler reads by name. -/
def Snapshot.hasRosterCols (s : Snapshot) : Prop :=
  "Campus ID" ∈ s.cols ∧ "Status" ∈ s.cols

instance (s : Snapshot) : Decidable s.hasRosterCols := by
  unfold Snapshot.hasRosterCols; infer_instance

/-- The columns the Event Log Builder reads by name. -/
def Snapshot.hasReportCols (s : Snapshot) : Prop :=
  "Campus ID" ∈ s.cols ∧ "First Name" ∈ s.cols ∧ "Last Name" ∈ s.cols ∧
    "Email Address" ∈ s.cols ∧ "Status" ∈ s.cols

instance (s : Snapshot) : Decidable s.hasReportCols := by
  unfold Snapshot.hasReportCols; infer_instance

/-- Every successfully read snapshot of the timeline is well formed and has
the columns required by the Reconciler (spec, sections 3 and 6). -/
def RosterOK (tl : Timeline) : Prop :=
  ∀ p ∈ tl, ∀ s : Snapshot, p.2 = some s → s.WF ∧ s.hasRosterCols

instance (tl : Timeline) : Decidable (RosterOK tl) := by
  unfold RosterOK
  have : ∀ p : String × Option Snapshot,
      Decidable (∀ s : Snapshot, p.2 = some s → s.WF ∧ s.hasRosterCols) := by
    intro p
    match h : p.2 with
    | none => exact isTrue (by intro s hs; simp [h] at hs)
    | some s0 =>
      refine decidable_of_iff (s0.WF ∧ s0.hasRosterCols) ?_
      constructor
      · intro hw s hs; cases hs; exact hw
      · intro hall; exact hall s0 rfl
  exact List.decidableBAll _ tl

/-- Every successfully read snapshot of the timeline is well formed and has
the columns required by the Event Log Builder. -/
def ReportOK (tl : Timeline) : Prop :=
  ∀ p ∈ tl, ∀ s : Snapshot, p.2 = some s → s.WF ∧ s.hasReportCols

instance (tl : Timeline) : Decidable (ReportOK tl) := by
  unfold ReportOK
  have : ∀ p : String × Option Snapshot,
      Decidable (∀ s : Snapshot, p.2 = some s → s.WF ∧ s.hasReportCols) := by
    intro p
    match h : p.2 with
    | none => exact isTrue (by intro s hs; simp [h] at hs)
    | some s0 =>
      refine decidable_of_iff (s0.WF ∧ s0.hasReportCols) ?_
      constructor
      · intro hw s hs; cases hs; exact hw
      · intro hall; exact hall s0 rfl
  exact List.decidableBAll _ tl

/-- The successfully read snapshots of a timeline, with their dates, in
order. -/
def readables (tl : Timeline) : List (String × Snapshot) :=
  tl.filterMap (fun p => p.2.map (fun s => (p.1, s)))

/-- Whether a snapshot contains a row for student `x` with status exactly
"Enrolled". -/
def snapshotEnrolls (s : Snapshot) (x : String) : Bool :=
  s.rows.any (fun r =>
    getCell r "Campus ID" == some x && getCell r "Status" == some "Enrolled")

/-- The capture date of the earliest successfully read snapshot in which
student `x` has status "Enrolled" (spec: `enrolled_date`). -/
def firstEnrolledDate (tl : Timeline) (x : String) : Option String :=
  ((readables tl).filterMap
    (fun p => if snapshotEnrolls p.2 x then some p.1 else none)).head?

/-- The capture date of the earliest transition between consecutive
successfully read snapshots where student `x` was present in the former and
absent from the latter (spec: `dropped_date`). -/
def firstDroppedDate (tl : Timeline) (x : String) : Option String :=
  (((readables tl).zip (readables tl).tail).filterMap
    (fun q => if x ∈ snapshotIds q.1.2 ∧ ¬ x ∈ snapshotIds q.2.2
              then some q.2.1 else none)).head?

/-- The last row with campus id `x` in a list of rows. -/
def lastMatch (x : String) : List Row → Option Row
  | [] => none
  | r :: rest =>
    match lastMatch x rest with
    | some r' => some r'
    | none => if getCell r "Campus ID" == some x then some r else none

/-- The row of student `x` in the most recent successfully read snapshot
in which the student appears (the spec's `latest_known_row_of`). -/
def latestRowSpec (tl : Timeline) (x : String) : Option Row :=
  lastMatch x ((readables tl).flatMap (fun p => p.2.rows))

/-- Whether the row's trimmed status note equals "Withdrawn" (line 198/208). -/
def wRow (r : Row) : Bool :=
  pyStrip ((getCell r "Status Notes").getD "") == "Withdrawn"

/-- Whether a snapshot contains a row for student `x` whose trimmed status
note equals "Withdrawn". -/
def hasW (s : Snapshot) (x : String) : Bool :=
  s.rows.any (fun r => getCell r "Campus ID" == some x && wRow r)

/-- A row is reported withdrawn when its trimmed note equals "Withdrawn" and
no previously seen snapshot contains a "Withdrawn" note for the same id. -/
def rowFreshSeen (seen : List Snapshot) (r : Row) : Bool :=
  wRow r && !(seen.any (fun s0 =>
    match getCell r "Campus ID" with
    | some c => hasW s0 c
    | none => false))

/-- For each successfully read snapshot, in order, the rows reported
withdrawn there: rows whose trimmed note is "Withdrawn" and whose id has no
"Withdrawn" note in any earlier successfully read snapshot. -/
def wRowsGo (seen : List Snapshot) : List (String × Snapshot) → List (List Row)
  | [] => []
  | (_, s) :: rest => s.rows.filter (rowFreshSeen seen) :: wRowsGo (seen ++ [s]) rest

/-- The ids of the snapshot preceding a given one in the readable
subsequence (`none` for the first readable snapshot). -/
def prevIdsOf : Option (String × Snapshot) → List String
  | none => []
  | some p => snapshotIds p.2

/-- The rows a snapshot reports as new relative to the previous readable
snapshot's ids: status exactly "Enrolled" and id not present before
(spec: `new_students`), projected to `(first, last, email)`. -/
def newSpec (prevIds : List String) (s : Snapshot) : List Info :=
  (s.rows.filter (fun r =>
    getCell r "Status" == some "Enrolled" &&
      !(match getCell r "Campus ID" with
        | some c => prevIds.contains c
        | none => false))).map infoOf

/-! ## Toolkit lemmas -/

theorem ofirst_none_left {α : Type} (b : Option α) : ofirst none b = b := rfl

theorem ofirst_some {α : Type} (v : α) (b : Option α) :
    ofirst (some v) b = some v := rfl

theorem ofirst_none_right {α : Type} (a : Option α) : ofirst a none = a := by
  cases a <;> rfl

theorem ofirst_assoc {α : Type} (a b c : Option α) :
    ofirst (ofirst a b) c = ofirst a (ofirst b c) := by
  cases a <;> rfl

theorem ofirst_isSome {α : Type} (a b : Option α) :
    (ofirst a b).isSome ↔ a.isSome ∨ b.isSome := by
  cases a <;> simp [ofirst]

theorem alookup_append {α : Type} (m₁ m₂ : List (String × α)) (k : String) :
    alookup (m₁ ++ m₂) k = ofirst (alookup m₁ k) (alookup m₂ k) := by
  induction m₁ with
  | nil => rfl
  | cons p m₁ ih =>
    obtain ⟨k', v⟩ := p
    by_cases h : k' = k <;> simp [alookup, h, ih, ofirst]

theorem alookup_single {α : Type} (k k' : String) (v : α) :
    alookup [(k, v)] k' = if k = k' then some v else none := rfl

theorem alookup_upsert {α : Type} (m : List (String × α)) (k k' : String) (v : α) :
    alookup (upsert m k v) k' = if k = k' then some v else alookup m k' := by
  induction m with
  | nil => rfl
  | cons p m ih =>
    obtain ⟨k₀, v₀⟩ := p
    by_cases h0 : k₀ = k
    · subst h0
      by_cases h1 : k₀ = k'
      · subst h1; simp [upsert, alookup]
      · simp [upsert, alookup, h1]
    · by_cases h1 : k₀ = k'
      · subst h1
        have : ¬ k = k₀ := fun h => h0 h.symm
        simp [upsert, h0, alookup, this]
      · simp [upsert, h0, alookup, h1, ih]

theorem alookup_isSome_iff {α : Type} (m : List (String × α)) (k : String) :
    (alookup m k).isSome ↔ k ∈ m.map Prod.fst := by
  induction m with
  | nil => simp [alookup]
  | cons p m ih =>
    obtain ⟨k', v⟩ := p
    by_cases h : k' = k
    · subst h; simp [alookup]
    · have h' : ¬ k = k' := fun hh => h hh.symm
      simp [alookup, h, h', ih]

theorem alookup_eq_none_of_not_mem {α : Type} {m : List (String × α)} {k : String}
    (h : ¬ k ∈ m.map Prod.fst) : alookup m k = none := by
  have hs := (alookup_isSome_iff m k).not.mpr h
  cases hm : alookup m k with
  | none => rfl
  | some v => rw [hm] at hs; simp at hs

theorem alookup_map_some (r : Row) (k : String) :
    alookup (r.map (fun p => (p.1, some p.2))) k = (alookup r k).map some := by
  induction r with
  | nil => rfl
  | cons p r ih =>
    obtain ⟨k', v⟩ := p
    by_cases h : k' = k <;> simp [alookup, h, ih]

theorem map_some_bind_id {α : Type} (o : Option α) : (o.map some).bind id = o := by
  cases o <;> rfl

theorem alookup_mapReplace_ne {cells : List (String × Option String)}
    {k k' : String} {v : Option String} (h : k' ≠ k) :
    alookup (cells.map (fun p => if p.1 = k then (k, v) else p)) k' =
      alookup cells k' := by
  induction cells with
  | nil => rfl
  | cons p cells ih =>
    obtain ⟨k₀, v₀⟩ := p
    simp only [List.map_cons]
    by_cases h0 : k₀ = k
    · rw [show (if (k₀, v₀).1 = k then (k, v) else (k₀, v₀)) = (k, v) by simp [h0]]
      have h1 : ¬ k = k' := fun hh => h hh.symm
      have h2 : ¬ k₀ = k' := by rw [h0]; exact h1
      simp [alookup, h1, h2, ih]
    · rw [show (if (k₀, v₀).1 = k then (k, v) else (k₀, v₀)) = (k₀, v₀) by simp [h0]]
      by_cases h1 : k₀ = k' <;> simp [alookup, h1, ih]

theorem alookup_mapReplace_self {cells : List (String × Option String)}
    {k : String} {v : Option String} (h : k ∈ cells.map Prod.fst) :
    alookup (cells.map (fun p => if p.1 = k then (k, v) else p)) k = some v := by
  induction cells with
  | nil => simp at h
  | cons p cells ih =>
    obtain ⟨k₀, v₀⟩ := p
    simp only [List.map_cons]
    by_cases h0 : k₀ = k
    · rw [show (if (k₀, v₀).1 = k then (k, v) else (k₀, v₀)) = (k, v) by simp [h0]]
      simp [alookup]
    · rw [show (if (k₀, v₀).1 = k then (k, v) else (k₀, v₀)) = (k₀, v₀) by simp [h0]]
      have hm : k ∈ cells.map Prod.fst := by
        simp only [List.map_cons, List.mem_cons] at h
        rcases h with h1 | h1
        · exact absurd h1.symm h0
        · exact h1
      simp [alookup, h0, ih hm]

theorem alookup_setCell_ne {cells : List (String × Option String)}
    {k k' : String} {v : Option String} (h : k' ≠ k) :
    alookup (setCell cells k v) k' = alookup cells k' := by
  by_cases hany : (cells.any (fun p => p.1 = k)) = true
  · rw [setCell, if_pos hany]
    exact alookup_mapReplace_ne h
  · rw [setCell, if_neg hany, alookup_append, alookup_single]
    have : ¬ k = k' := fun hh => h hh.symm
    simp [this, ofirst_none_right]

theorem alookup_setCell_self (cells : List (String × Option String))
    (k : String) (v : Option String) :
    alookup (setCell cells k v) k = some v := by
  by_cases hany : (cells.any (fun p => p.1 = k)) = true
  · have hm : k ∈ cells.map Prod.fst := by
      simp only [List.any_eq_true, decide_eq_true_eq] at hany
      obtain ⟨p, hp, hpk⟩ := hany
      exact List.mem_map.mpr ⟨p, hp, hpk⟩
    rw [setCell, if_pos hany]
    exact alookup_mapReplace_self hm
  · have hnm : ¬ k ∈ cells.map Prod.fst := by
      intro hk
      rcases List.mem_map.mp hk with ⟨p, hp, hpk⟩
      exact hany (List.any_eq_true.mpr ⟨p, hp, by simp [hpk]⟩)
    rw [setCell, if_neg hany, alookup_append, alookup_eq_none_of_not_mem hnm,
      alookup_single]
    simp [ofirst]

theorem mem_of_getLast? {α : Type} : ∀ {l : List α} {a : α},
    l.getLast? = some a → a ∈ l
  | [], a, h => by simp [List.getLast?] at h
  | [b], a, h => by
    simp only [List.getLast?_singleton, Option.some.injEq] at h
    simp [h]
  | b :: c :: l, a, h => by
    rw [List.getLast?_cons_cons] at h
    exact List.mem_cons_of_mem b (mem_of_getLast? h)

theorem isEmpty_false_of_getLast? {α : Type} {l : List α} {a : α}
    (h : l.getLast? = some a) : l.isEmpty = false := by
  cases l with
  | nil => simp [List.getLast?] at h
  | cons b l => rfl

theorem ofirst_of_isSome {α : Type} {a : Option α} (b : Option α)
    (h : a.isSome) : ofirst a b = a := by
  cases a with
  | none => simp at h
  | some v => rfl

theorem ofirst_if_or {α : Type} (P Q : Prop) [Decidable P] [Decidable Q] (d : α) :
    ofirst (if P then some d else none) (if Q then some d else none) =
      if P ∨ Q then some d else none := by
  by_cases hp : P <;> by_cases hq : Q <;> simp [hp, hq, ofirst]

theorem mem_snapshotIds {s : Snapshot} {x : String} :
    x ∈ snapshotIds s ↔ ∃ r ∈ s.rows, getCell r "Campus ID" = some x := by
  simp [snapshotIds, List.mem_filterMap]

/-! ## Reconciler: per-snapshot lemmas -/

theorem cells_present {s : Snapshot} (hwf : s.WF) (hcols : s.hasRosterCols) :
    ∀ r ∈ s.rows, (getCell r "Campus ID").isSome ∧ (getCell r "Status").isSome := by
  intro r hr
  constructor
  · exact (alookup_isSome_iff r _).mpr (by rw [hwf.1 r hr]; exact hcols.1)
  · exact (alookup_isSome_iff r _).mpr (by rw [hwf.1 r hr]; exact hcols.2)

theorem rosterRow_eq {d : String} {ed : List (String × String)}
    {sr : List (String × Row)} {r : Row} {c : String}
    (hc : getCell r "Campus ID" = some c) (hs : (getCell r "Status").isSome) :
    rosterRow d (ed, sr) r =
      .ok ((if alookup ed c = none ∧ getCell r "Status" = some "Enrolled"
            then ed ++ [(c, d)] else ed), upsert sr c r) := by
  obtain ⟨stv, hstv⟩ := Option.isSome_iff_exists.mp hs
  unfold rosterRow
  simp only [hc, hstv]
  by_cases he : alookup ed c = none
  · by_cases hE : stv = "Enrolled"
    · rw [if_pos he, if_pos hE, if_pos ⟨he, by rw [hE]⟩]
    · rw [if_pos he, if_neg hE, if_neg (fun hh => hE (Option.some.inj hh.2))]
  · rw [if_neg he, if_neg (fun hh => he hh.1)]

/-- The row loop on a snapshot whose rows all carry the two required cells:
it succeeds, and the resulting `enrollment_dates` and `student_records` are
characterised pointwise. -/
theorem rosterRows_master {d x : String} :
    ∀ (rows : List Row) (ed : List (String × String)) (sr : List (String × Row)),
      (∀ r ∈ rows, (getCell r "Campus ID").isSome ∧ (getCell r "Status").isSome) →
      ∃ ed' sr', rosterRows d (ed, sr) rows = .ok (ed', sr') ∧
        alookup ed' x = ofirst (alookup ed x)
          (if rows.any (fun r => getCell r "Campus ID" == some x &&
               getCell r "Status" == some "Enrolled") then some d else none) ∧
        alookup sr' x = ofirst (lastMatch x rows) (alookup sr x)
  | [], ed, sr, _ => by
    refine ⟨ed, sr, rfl, ?_, ?_⟩
    · simp [ofirst_none_right]
    · simp [lastMatch, ofirst]
  | r :: rest, ed, sr, h => by
    obtain ⟨hcs, hss⟩ := h r (List.mem_cons_self r rest)
    obtain ⟨c, hc⟩ := Option.isSome_iff_exists.mp hcs
    have hstep := @rosterRow_eq d ed sr _ _ hc hss
    set ed₁ := (if alookup ed c = none ∧ getCell r "Status" = some "Enrolled"
                then ed ++ [(c, d)] else ed) with hed₁
    obtain ⟨ed', sr', hrun, hedl, hsrl⟩ :=
      rosterRows_master (d := d) (x := x) rest ed₁ (upsert sr c r)
        (fun r hr => h r (List.mem_cons_of_mem _ hr))
    refine ⟨ed', sr', ?_, ?_, ?_⟩
    · unfold rosterRows
      rw [hstep]
      exact hrun
    · -- enrollment_dates lookup
      rw [hedl]
      have hhead : (getCell r "Campus ID" == some x &&
          getCell r "Status" == some "Enrolled") = true ↔
          (c = x ∧ getCell r "Status" = some "Enrolled") := by
        simp [hc]
      by_cases hcond : alookup ed c = none ∧ getCell r "Status" = some "Enrolled"
      · rw [hed₁, if_pos hcond, alookup_append, alookup_single, ofirst_assoc]
        rw [List.any_cons]
        congr 1
        rw [ofirst_if_or]
        by_cases hcx : c = x
        · have : (getCell r "Campus ID" == some x &&
              getCell r "Status" == some "Enrolled") = true :=
            hhead.mpr ⟨hcx, hcond.2⟩
          simp [hcx, this]
        · have : ¬ ((getCell r "Campus ID" == some x &&
              getCell r "Status" == some "Enrolled") = true) :=
            fun hh => hcx (hhead.mp hh).1
          simp only [Bool.not_eq_true] at this
          simp [hcx, this]
      · rw [hed₁, if_neg hcond]
        rw [List.any_cons]
        by_cases hh : (getCell r "Campus ID" == some x &&
            getCell r "Status" == some "Enrolled") = true
        · obtain ⟨hcx, hst⟩ := hhead.mp hh
          have hedx : (alookup ed x).isSome := by
            subst hcx
            cases hax : alookup ed c with
            | none => exact absurd ⟨hax, hst⟩ hcond
            | some v => simp
          rw [ofirst_of_isSome _ hedx, ofirst_of_isSome _ hedx]
        · simp only [Bool.not_eq_true] at hh
          simp [hh]
    · -- student_records lookup
      rw [hsrl]
      cases hlm : lastMatch x rest with
      | some r' => simp [lastMatch, hlm, ofirst]
      | none =>
        rw [alookup_upsert]
        by_cases hcx : c = x
        · have : (getCell r "Campus ID" == some x) = true := by simp [hc, hcx]
          simp [lastMatch, hlm, this, ofirst, hcx]
        · have : ¬ ((getCell r "Campus ID" == some x) = true) := by
            simp [hc]; exact hcx
          simp only [Bool.not_eq_true] at this
          simp [lastMatch, hlm, this, ofirst, hcx]

/-- If every row lacks the "Status" cell, the loop (whether it succeeds or
raises) never touches `enrollment_dates`. -/
theorem rosterRows_noStatus_ed {d : String} :
    ∀ (rows : List Row) (ed : List (String × String)) (sr : List (String × Row)),
      (∀ r ∈ rows, getCell r "Status" = none) →
      (∀ e, rosterRows d (ed, sr) rows = .error e → e.1 = ed) ∧
      (∀ st', rosterRows d (ed, sr) rows = .ok st' → st'.1 = ed)
  | [], ed, sr, _ => by
    constructor
    · intro e he; simp [rosterRows] at he
    · intro st' hst'
      simp only [rosterRows, Except.ok.injEq] at hst'
      rw [← hst']
  | r :: rest, ed, sr, h => by
    have hs0 : getCell r "Status" = none := h r (List.mem_cons_self r rest)
    cases hc : getCell r "Campus ID" with
    | none =>
      have hrow : rosterRow d (ed, sr) r = .error (ed, sr) := by
        unfold rosterRow; simp [hc]
      constructor
      · intro e he
        unfold rosterRows at he
        rw [hrow] at he
        cases he; rfl
      · intro st' hst'
        unfold rosterRows at hst'
        rw [hrow] at hst'
        cases hst'
    | some c =>
      by_cases he0 : alookup ed c = none
      · have hrow : rosterRow d (ed, sr) r = .error (ed, upsert sr c r) := by
          unfold rosterRow; simp [hc, he0, hs0]
        constructor
        · intro e he
          unfold rosterRows at he
          rw [hrow] at he
          cases he; rfl
        · intro st' hst'
          unfold rosterRows at hst'
          rw [hrow] at hst'
          cases hst'
      · have hrow : rosterRow d (ed, sr) r = .ok (ed, upsert sr c r) := by
          unfold rosterRow; simp [hc, he0]
        obtain ⟨iherr, ihok⟩ := rosterRows_noStatus_ed rest ed (upsert sr c r)
          (fun r hr => h r (List.mem_cons_of_mem _ hr))
        constructor
        · intro e he
          unfold rosterRows at he
          rw [hrow] at he
          exact iherr e he
        · intro st' hst'
          unfold rosterRows at hst'
          rw [hrow] at hst'
          exact ihok st' hst'

/-- On a well-formed snapshot, a raising row loop leaves `enrollment_dates`
untouched (the raise happens either before any mutation, or at a "Status"
access, which precedes the only enrollment-date insertion). -/
theorem rosterRows_error_ed {d : String} {s : Snapshot}
    {ed : List (String × String)} {sr : List (String × Row)}
    {e : List (String × String) × List (String × Row)}
    (hwf : s.WF) (h : rosterRows d (ed, sr) s.rows = .error e) : e.1 = ed := by
  by_cases hST : "Status" ∈ s.cols
  · by_cases hCID : "Campus ID" ∈ s.cols
    · obtain ⟨ed', sr', hok, -, -⟩ :=
        rosterRows_master (d := d) (x := "") s.rows ed sr
          (cells_present hwf ⟨hCID, hST⟩)
      rw [hok] at h
      cases h
    · cases hrows : s.rows with
      | nil => rw [hrows] at h; simp [rosterRows] at h
      | cons r rest =>
        have hcn : getCell r "Campus ID" = none := by
          cases hc : getCell r "Campus ID" with
          | none => rfl
          | some c =>
            have : "Campus ID" ∈ r.map Prod.fst :=
              (alookup_isSome_iff r _).mp (by simp [getCell, hc])
            rw [hwf.1 r (by rw [hrows]; exact List.mem_cons_self r rest)] at this
            exact absurd this hCID
        have hrow : rosterRow d (ed, sr) r = .error (ed, sr) := by
          unfold rosterRow; simp [hcn]
        rw [hrows] at h
        unfold rosterRows at h
        rw [hrow] at h
        cases h; rfl
  · have hnone : ∀ r ∈ s.rows, getCell r "Status" = none := by
      intro r hr
      cases hc : getCell r "Status" with
      | none => rfl
      | some v =>
        have : "Status" ∈ r.map Prod.fst :=
          (alookup_isSome_iff r _).mp (by simp [getCell, hc])
        rw [hwf.1 r hr] at this
        exact absurd this hST
    exact (rosterRows_noStatus_ed s.rows ed sr hnone).1 e h

theorem alookup_recordDrops {d x : String} :
    ∀ (lst : List String) (dd : List (String × String)),
      alookup (recordDrops d dd lst) x =
        ofirst (alookup dd x) (if x ∈ lst then some d else none)
  | [], dd => by simp [recordDrops, ofirst_none_right]
  | c :: rest, dd => by
    by_cases he : alookup dd c = none
    · rw [recordDrops, if_pos he]
      rw [alookup_recordDrops rest (dd ++ [(c, d)])]
      rw [alookup_append, alookup_single]
      by_cases hx : x = c
      · subst hx
        rw [he]
        simp [ofirst, List.mem_cons]
      · have hcx : ¬ c = x := fun hh => hx hh.symm
        rw [if_neg hcx, ofirst_none_right]
        simp only [List.mem_cons]
        have : (x = c ∨ x ∈ rest) ↔ x ∈ rest := by
          constructor
          · rintro (h1 | h1); exact absurd h1 hx; exact h1
          · exact Or.inr
        rw [if_congr this rfl rfl]
    · rw [recordDrops, if_neg he]
      rw [alookup_recordDrops rest dd]
      by_cases hx : x = c
      · subst hx
        have hs : (alookup dd x).isSome := by
          cases ha : alookup dd x with
          | none => exact absurd ha he
          | some v => simp
        rw [ofirst_of_isSome _ hs, ofirst_of_isSome _ hs]
      · simp only [List.mem_cons]
        have : (x = c ∨ x ∈ rest) ↔ x ∈ rest := by
          constructor
          · rintro (h1 | h1); exact absurd h1 hx; exact h1
          · exact Or.inr
        rw [if_congr this rfl rfl]

/-! ## Reconciler: fold-level invariants -/

/-- First present-then-absent transition date, threading the previous
readable snapshot's ids. -/
def dropSpecGo (x : String) : List String → Timeline → Option String
  | _, [] => none
  | prev, (_, none) :: rest => dropSpecGo x prev rest
  | prev, (d, some s) :: rest =>
    if x ∈ prev ∧ ¬ x ∈ snapshotIds s then some d
    else dropSpecGo x (snapshotIds s) rest

theorem readables_cons_none (d : String) (tl : Timeline) :
    readables ((d, none) :: tl) = readables tl := by
  simp [readables]

theorem readables_cons_some (d : String) (s : Snapshot) (tl : Timeline) :
    readables ((d, some s) :: tl) = (d, s) :: readables tl := by
  simp [readables]

theorem rosterOK_cons {p : String × Option Snapshot} {tl : Timeline}
    (h : RosterOK (p :: tl)) :
    (∀ s : Snapshot, p.2 = some s → s.WF ∧ s.hasRosterCols) ∧ RosterOK tl :=
  ⟨h p (List.mem_cons_self p tl), fun q hq => h q (List.mem_cons_of_mem p hq)⟩

theorem reportOK_cons {p : String × Option Snapshot} {tl : Timeline}
    (h : ReportOK (p :: tl)) :
    (∀ s : Snapshot, p.2 = some s → s.WF ∧ s.hasReportCols) ∧ ReportOK tl :=
  ⟨h p (List.mem_cons_self p tl), fun q hq => h q (List.mem_cons_of_mem p hq)⟩

theorem firstEnrolledDate_nil (x : String) : firstEnrolledDate [] x = none := rfl

theorem firstEnrolledDate_cons_none (d : String) (tl : Timeline) (x : String) :
    firstEnrolledDate ((d, none) :: tl) x = firstEnrolledDate tl x := by
  unfold firstEnrolledDate
  rw [readables_cons_none]

theorem firstEnrolledDate_cons_some (d : String) (s : Snapshot) (tl : Timeline)
    (x : String) :
    firstEnrolledDate ((d, some s) :: tl) x =
      ofirst (if snapshotEnrolls s x then some d else none)
        (firstEnrolledDate tl x) := by
  unfold firstEnrolledDate
  rw [readables_cons_some, List.filterMap_cons]
  by_cases hE : snapshotEnrolls s x = true
  · simp [hE, ofirst]
  · simp only [Bool.not_eq_true] at hE
    simp [hE, ofirst]

theorem lastMatch_append (x : String) :
    ∀ (l₁ l₂ : List Row),
      lastMatch x (l₁ ++ l₂) = ofirst (lastMatch x l₂) (lastMatch x l₁)
  | [], l₂ => by
    rw [List.nil_append, show lastMatch x ([] : List Row) = none from rfl,
      ofirst_none_right]
  | r :: l₁, l₂ => by
    rw [List.cons_append]
    simp only [lastMatch]
    rw [lastMatch_append x l₁ l₂]
    cases h2 : lastMatch x l₂ with
    | some a => rfl
    | none => rfl

theorem lastMatch_isSome (x : String) :
    ∀ (l : List Row),
      (lastMatch x l).isSome = true ↔ ∃ r ∈ l, getCell r "Campus ID" = some x
  | [] => by simp [lastMatch]
  | r :: rest => by
    simp only [lastMatch]
    cases h2 : lastMatch x rest with
    | some a =>
      have hrest := (lastMatch_isSome x rest).mp (by rw [h2]; rfl)
      constructor
      · intro _
        obtain ⟨r', hr', hcx⟩ := hrest
        exact ⟨r', List.mem_cons_of_mem _ hr', hcx⟩
      · intro _; rfl
    | none =>
      have hrest := lastMatch_isSome x rest
      rw [h2] at hrest
      simp only [Option.isSome_none, Bool.false_eq_true, false_iff] at hrest
      by_cases hx : (getCell r "Campus ID" == some x) = true
      · simp only [hx, if_true]
        constructor
        · intro _
          exact ⟨r, List.mem_cons_self r rest, by simpa using hx⟩
        · intro _; rfl
      · simp only [Bool.not_eq_true] at hx
        simp only [hx, Bool.false_eq_true, if_false]
        constructor
        · intro hh; simp at hh
        · rintro ⟨r', hm, hcx⟩
          rcases List.mem_cons.mp hm with rfl | hm'
          · rw [hcx] at hx; simp at hx
          · exact absurd ⟨r', hm', hcx⟩ hrest

theorem rosterStep_none (st : RosterState) (d : String) :
    rosterStep st d none = st := rfl

theorem rosterStep_some_ok {st : RosterState} {d : String} {s : Snapshot}
    {ed' : List (String × String)} {sr' : List (String × Row)}
    (hok : rosterRows d (st.enrollment_dates, st.student_records) s.rows =
      .ok (ed', sr'))
    (hcid : "Campus ID" ∈ s.cols) :
    rosterStep st d (some s) =
      ⟨ed', recordDrops d st.dropped_dates
          (st.previous_students.filter
            (fun cid => !((snapshotIds s).contains cid))),
        sr', snapshotIds s⟩ := by
  show (match rosterRows d (st.enrollment_dates, st.student_records) s.rows with
        | .error (ed, sr) =>
          { st with enrollment_dates := ed, student_records := sr }
        | .ok (ed, sr) =>
          if "Campus ID" ∈ s.cols then
            { enrollment_dates := ed,
              dropped_dates := recordDrops d st.dropped_dates
                (st.previous_students.filter
                  (fun cid => !((snapshotIds s).contains cid))),
              student_records := sr,
              previous_students := snapshotIds s }
          else
            { st with enrollment_dates := ed, student_records := sr }) = _
  rw [hok]
  exact if_pos hcid

theorem rosterStep_some_error {st : RosterState} {d : String} {s : Snapshot}
    {e : List (String × String) × List (String × Row)}
    (herr : rosterRows d (st.enrollment_dates, st.student_records) s.rows =
      .error e) :
    rosterStep st d (some s) =
      { st with enrollment_dates := e.1, student_records := e.2 } := by
  show (match rosterRows d (st.enrollment_dates, st.student_records) s.rows with
        | .error (ed, sr) =>
          { st with enrollment_dates := ed, student_records := sr }
        | .ok (ed, sr) =>
          if "Campus ID" ∈ s.cols then
            { enrollment_dates := ed,
              dropped_dates := recordDrops d st.dropped_dates
                (st.previous_students.filter
                  (fun cid => !((snapshotIds s).contains cid))),
              student_records := sr,
              previous_students := snapshotIds s }
          else
            { st with enrollment_dates := ed, student_records := sr }) = _
  rw [herr]

/-- Running the Reconciler loop: pointwise value of `enrollment_dates`. -/
theorem rosterRun_ed (x : String) :
    ∀ (tl : Timeline) (st : RosterState), RosterOK tl →
      alookup (rosterRun st tl).enrollment_dates x =
        ofirst (alookup st.enrollment_dates x) (firstEnrolledDate tl x)
  | [], st, _ => by
    rw [show rosterRun st [] = st from rfl, firstEnrolledDate_nil,
      ofirst_none_right]
  | (d, none) :: rest, st, hOK => by
    rw [show rosterRun st ((d, none) :: rest) = rosterRun st rest from rfl,
      firstEnrolledDate_cons_none]
    exact rosterRun_ed x rest st (rosterOK_cons hOK).2
  | (d, some s) :: rest, st, hOK => by
    obtain ⟨hs, hOKrest⟩ := rosterOK_cons hOK
    obtain ⟨hwf, hcols⟩ := hs s rfl
    obtain ⟨ed', sr', hok, hedl, hsrl⟩ :=
      rosterRows_master (d := d) (x := x) s.rows st.enrollment_dates
        st.student_records (cells_present hwf hcols)
    have hstep : rosterStep st d (some s) =
        ⟨ed', recordDrops d st.dropped_dates
            (st.previous_students.filter
              (fun cid => !((snapshotIds s).contains cid))),
          sr', snapshotIds s⟩ := by
      exact rosterStep_some_ok hok hcols.1
    rw [show rosterRun st ((d, some s) :: rest) =
        rosterRun (rosterStep st d (some s)) rest from rfl, hstep]
    rw [rosterRun_ed x rest _ hOKrest]
    show ofirst (alookup ed' x) _ = _
    rw [hedl, firstEnrolledDate_cons_some, ofirst_assoc]
    rfl

/-- Running the Reconciler loop: pointwise value of `dropped_dates`. -/
theorem rosterRun_dd (x : String) :
    ∀ (tl : Timeline) (st : RosterState), RosterOK tl →
      alookup (rosterRun st tl).dropped_dates x =
        ofirst (alookup st.dropped_dates x)
          (dropSpecGo x st.previous_students tl)
  | [], st, _ => by
    rw [show rosterRun st [] = st from rfl,
      show dropSpecGo x st.previous_students [] = none from rfl,
      ofirst_none_right]
  | (d, none) :: rest, st, hOK => by
    rw [show rosterRun st ((d, none) :: rest) = rosterRun st rest from rfl,
      show dropSpecGo x st.previous_students ((d, none) :: rest) =
        dropSpecGo x st.previous_students rest from rfl]
    exact rosterRun_dd x rest st (rosterOK_cons hOK).2
  | (d, some s) :: rest, st, hOK => by
    obtain ⟨hs, hOKrest⟩ := rosterOK_cons hOK
    obtain ⟨hwf, hcols⟩ := hs s rfl
    obtain ⟨ed', sr', hok, hedl, hsrl⟩ :=
      rosterRows_master (d := d) (x := x) s.rows st.enrollment_dates
        st.student_records (cells_present hwf hcols)
    have hstep : rosterStep st d (some s) =
        ⟨ed', recordDrops d st.dropped_dates
            (st.previous_students.filter
              (fun cid => !((snapshotIds s).contains cid))),
          sr', snapshotIds s⟩ := by
      exact rosterStep_some_ok hok hcols.1
    rw [show rosterRun st ((d, some s) :: rest) =
        rosterRun (rosterStep st d (some s)) rest from rfl, hstep]
    rw [rosterRun_dd x rest _ hOKrest]
    show ofirst (alookup (recordDrops d st.dropped_dates _) x) _ = _
    rw [alookup_recordDrops, ofirst_assoc]
    have hmem : (x ∈ st.previous_students.filter
        (fun cid => !((snapshotIds s).contains cid))) ↔
        (x ∈ st.previous_students ∧ ¬ x ∈ snapshotIds s) := by
      rw [List.mem_filter]
      simp
    have hspec : dropSpecGo x st.previous_students ((d, some s) :: rest) =
        ofirst (if x ∈ st.previous_students ∧ ¬ x ∈ snapshotIds s
                then some d else none)
          (dropSpecGo x (snapshotIds s) rest) := by
      show (if x ∈ st.previous_students ∧ ¬ x ∈ snapshotIds s then some d
            else dropSpecGo x (snapshotIds s) rest) = _
      by_cases hcond : x ∈ st.previous_students ∧ ¬ x ∈ snapshotIds s
      · rw [if_pos hcond, if_pos hcond]; rfl
      · rw [if_neg hcond, if_neg hcond]; rfl
    rw [hspec]
    congr 1
    congr 1
    rw [if_congr hmem rfl rfl]

/-- Running the Reconciler loop: pointwise value of `student_records`
("most recent row wins"). -/
theorem rosterRun_sr (x : String) :
    ∀ (tl : Timeline) (st : RosterState), RosterOK tl →
      alookup (rosterRun st tl).student_records x =
        ofirst (lastMatch x ((readables tl).flatMap (fun p => p.2.rows)))
          (alookup st.student_records x)
  | [], st, _ => by
    rw [show rosterRun st [] = st from rfl]
    rw [show readables ([] : Timeline) = [] from rfl]
    rfl
  | (d, none) :: rest, st, hOK => by
    rw [show rosterRun st ((d, none) :: rest) = rosterRun st rest from rfl,
      readables_cons_none]
    exact rosterRun_sr x rest st (rosterOK_cons hOK).2
  | (d, some s) :: rest, st, hOK => by
    obtain ⟨hs, hOKrest⟩ := rosterOK_cons hOK
    obtain ⟨hwf, hcols⟩ := hs s rfl
    obtain ⟨ed', sr', hok, hedl, hsrl⟩ :=
      rosterRows_master (d := d) (x := x) s.rows st.enrollment_dates
        st.student_records (cells_present hwf hcols)
    have hstep : rosterStep st d (some s) =
        ⟨ed', recordDrops d st.dropped_dates
            (st.previous_students.filter
              (fun cid => !((snapshotIds s).contains cid))),
          sr', snapshotIds s⟩ := by
      exact rosterStep_some_ok hok hcols.1
    rw [show rosterRun st ((d, some s) :: rest) =
        rosterRun (rosterStep st d (some s)) rest from rfl, hstep]
    rw [rosterRun_sr x rest _ hOKrest]
    show ofirst _ (alookup sr' x) = _
    rw [hsrl, readables_cons_some, List.flatMap_cons, lastMatch_append,
      ofirst_assoc]

/-- First present-then-absent transition on the readable subsequence. -/
def dropGoR (x : String) : List String → List (String × Snapshot) → Option String
  | _, [] => none
  | prev, (d, s) :: rest =>
    if x ∈ prev ∧ ¬ x ∈ snapshotIds s then some d
    else dropGoR x (snapshotIds s) rest

theorem dropSpecGo_eq_goR (x : String) :
    ∀ (tl : Timeline) (prev : List String),
      dropSpecGo x prev tl = dropGoR x prev (readables tl)
  | [], prev => rfl
  | (d, none) :: rest, prev => by
    rw [show dropSpecGo x prev ((d, none) :: rest) =
      dropSpecGo x prev rest from rfl, readables_cons_none]
    exact dropSpecGo_eq_goR x rest prev
  | (d, some s) :: rest, prev => by
    rw [readables_cons_some]
    show (if x ∈ prev ∧ ¬ x ∈ snapshotIds s then some d
          else dropSpecGo x (snapshotIds s) rest) =
         (if x ∈ prev ∧ ¬ x ∈ snapshotIds s then some d
          else dropGoR x (snapshotIds s) (readables rest))
    by_cases h : x ∈ prev ∧ ¬ x ∈ snapshotIds s
    · rw [if_pos h, if_pos h]
    · rw [if_neg h, if_neg h]
      exact dropSpecGo_eq_goR x rest _

theorem dropGoR_pairs (x : String) :
    ∀ (rest : List (String × Snapshot)) (d₀ : String) (s₀ : Snapshot),
      dropGoR x (snapshotIds s₀) rest =
        ((((d₀, s₀) :: rest).zip rest).filterMap (fun q =>
          if x ∈ snapshotIds q.1.2 ∧ ¬ x ∈ snapshotIds q.2.2
          then some q.2.1 else none)).head?
  | [], d₀, s₀ => rfl
  | (d, s) :: rest, d₀, s₀ => by
    show (if x ∈ snapshotIds s₀ ∧ ¬ x ∈ snapshotIds s then some d
          else dropGoR x (snapshotIds s) rest) = _
    by_cases h : x ∈ snapshotIds s₀ ∧ ¬ x ∈ snapshotIds s
    · simp [h]
    · simp only [List.zip_cons_cons, List.filterMap_cons]
      rw [if_neg h]
      simp only [h, if_false]
      exact dropGoR_pairs x rest d s

theorem firstDroppedDate_eq (tl : Timeline) (x : String) :
    dropSpecGo x [] tl = firstDroppedDate tl x := by
  rw [dropSpecGo_eq_goR]
  unfold firstDroppedDate
  cases hre : readables tl with
  | nil => rfl
  | cons p rest =>
    obtain ⟨d₀, s₀⟩ := p
    show (if x ∈ ([] : List String) ∧ ¬ x ∈ snapshotIds s₀ then some d₀
          else dropGoR x (snapshotIds s₀) rest) = _
    rw [if_neg (fun hh => (List.not_mem_nil x) hh.1)]
    rw [dropGoR_pairs x rest d₀ s₀]
    rfl

theorem mem_readables {tl : Timeline} {d : String} {s : Snapshot}
    (h : (d, some s) ∈ tl) : (d, s) ∈ readables tl :=
  List.mem_filterMap.mpr ⟨(d, some s), h, rfl⟩

/-- Evaluation of `generate_enrollment_roster` when the most recent file is
readable and carries the id column. -/
theorem generate_roster_eq {tl : Timeline} {dl : String} {sl : Snapshot}
    (hlast : tl.getLast? = some (dl, some sl)) (hcid : "Campus ID" ∈ sl.cols) :
    generate_enrollment_roster tl =
      some ((sl.rows.map (fun r =>
        ({ cells := r.map (fun p => (p.1, some p.2)),
           enrollment_date := (getCell r "Campus ID").bind
             (alookup (rosterFold tl).enrollment_dates),
           dropped_date := (getCell r "Campus ID").bind
             (alookup (rosterFold tl).dropped_dates) } : OutRow))) ++
        ((((rosterFold tl).student_records.map Prod.fst).filter
            (fun cid => !((snapshotIds sl).contains cid))).map (fun campus_id =>
          ({ cells := setCell (setCell (sl.cols.map (fun c =>
                (c, getCell ((alookup (rosterFold tl).student_records
                  campus_id).getD []) c)))
                "Campus ID" (some campus_id)) "Status" (some "Dropped"),
             enrollment_date :=
               alookup (rosterFold tl).enrollment_dates campus_id,
             dropped_date :=
               alookup (rosterFold tl).dropped_dates campus_id } : OutRow)))) := by
  unfold generate_enrollment_roster
  rw [isEmpty_false_of_getLast? hlast, hlast]
  simp only [Bool.false_eq_true, if_false, if_pos hcid]

/-- C1: the `enrolled_date` attached to every output row equals the capture
date of the earliest successfully read snapshot in which the student's
status is exactly "Enrolled" (`none` if there is no such snapshot); in
particular it is fixed by the first occurrence and no later snapshot moves
it. -/
theorem c1_enrolled_date_first_occurrence (tl : Timeline) (dl : String)
    (sl : Snapshot) (hOK : RosterOK tl)
    (hlast : tl.getLast? = some (dl, some sl)) :
    ∀ r ∈ (generate_enrollment_roster tl).getD [], ∀ x : String,
      r.campusId = some x → r.enrollment_date = firstEnrolledDate tl x := by
  have hmemtl : (dl, some sl) ∈ tl := mem_of_getLast? hlast
  obtain ⟨hwf, hcols⟩ := hOK (dl, some sl) hmemtl sl rfl
  rw [generate_roster_eq hlast hcols.1]
  intro r hr x hx
  simp only [Option.getD_some] at hr
  rcases List.mem_append.mp hr with hb | he
  · obtain ⟨row, hrow, rfl⟩ := List.mem_map.mp hb
    have hcid : getCell row "Campus ID" = some x := by
      unfold OutRow.campusId at hx
      simp only at hx
      rw [alookup_map_some, map_some_bind_id] at hx
      exact hx
    show (getCell row "Campus ID").bind
        (alookup (rosterFold tl).enrollment_dates) = _
    rw [hcid]
    show alookup (rosterFold tl).enrollment_dates x = _
    rw [rosterFold, rosterRun_ed x tl _ hOK]
    rfl
  · obtain ⟨cid, hcidm, rfl⟩ := List.mem_map.mp he
    have hx' : cid = x := by
      unfold OutRow.campusId at hx
      simp only at hx
      rw [alookup_setCell_ne (by decide), alookup_setCell_self] at hx
      simp only [Option.some_bind, id_eq, Option.some.injEq] at hx
      exact hx
    subst hx'
    show alookup (rosterFold tl).enrollment_dates cid = _
    rw [rosterFold, rosterRun_ed cid tl _ hOK]
    rfl

/-- C2: the `dropped_date` attached to every output row equals the capture
date of the earliest transition between consecutive successfully read
snapshots in which the student was present before and absent after (`none`
if no such transition exists); a later reappearance-then-redisappearance
does not change it. -/
theorem c2_dropped_date_first_transition (tl : Timeline) (dl : String)
    (sl : Snapshot) (hOK : RosterOK tl)
    (hlast : tl.getLast? = some (dl, some sl)) :
    ∀ r ∈ (generate_enrollment_roster tl).getD [], ∀ x : String,
      r.campusId = some x → r.dropped_date = firstDroppedDate tl x := by
  have hmemtl : (dl, some sl) ∈ tl := mem_of_getLast? hlast
  obtain ⟨hwf, hcols⟩ := hOK (dl, some sl) hmemtl sl rfl
  rw [generate_roster_eq hlast hcols.1]
  intro r hr x hx
  simp only [Option.getD_some] at hr
  rcases List.mem_append.mp hr with hb | he
  · obtain ⟨row, hrow, rfl⟩ := List.mem_map.mp hb
    have hcid : getCell row "Campus ID" = some x := by
      unfold OutRow.campusId at hx
      simp only at hx
      rw [alookup_map_some, map_some_bind_id] at hx
      exact hx
    show (getCell row "Campus ID").bind
        (alookup (rosterFold tl).dropped_dates) = _
    rw [hcid]
    show alookup (rosterFold tl).dropped_dates x = _
    rw [rosterFold, rosterRun_dd x tl _ hOK]
    show dropSpecGo x [] tl = _
    rw [firstDroppedDate_eq]
  · obtain ⟨cid, hcidm, rfl⟩ := List.mem_map.mp he
    have hx' : cid = x := by
      unfold OutRow.campusId at hx
      simp only at hx
      rw [alookup_setCell_ne (by decide), alookup_setCell_self] at hx
      simp only [Option.some_bind, id_eq, Option.some.injEq] at hx
      exact hx
    subst hx'
    show alookup (rosterFold tl).dropped_dates cid = _
    rw [rosterFold, rosterRun_dd cid tl _ hOK]
    show dropSpecGo cid [] tl = _
    rw [firstDroppedDate_eq]

/-- C3: the set of student ids in the final augmented output is exactly the
union of ids observed across the successfully read snapshots of the
timeline. -/
theorem c3_coverage (tl : Timeline) (dl : String) (sl : Snapshot)
    (hOK : RosterOK tl) (hlast : tl.getLast? = some (dl, some sl)) :
    (generate_enrollment_roster tl).isSome ∧
    (∀ x : String,
      (∃ r ∈ (generate_enrollment_roster tl).getD [], r.campusId = some x) ↔
      (∃ p ∈ readables tl, x ∈ snapshotIds p.2)) := by
  have hmemtl : (dl, some sl) ∈ tl := mem_of_getLast? hlast
  obtain ⟨hwf, hcols⟩ := hOK (dl, some sl) hmemtl sl rfl
  rw [generate_roster_eq hlast hcols.1]
  refine ⟨rfl, ?_⟩
  intro x
  simp only [Option.getD_some]
  have hsr : ∀ y : String, alookup (rosterFold tl).student_records y =
      lastMatch y ((readables tl).flatMap (fun p => p.2.rows)) := by
    intro y
    rw [rosterFold, rosterRun_sr y tl _ hOK]
    exact ofirst_none_right _
  constructor
  · rintro ⟨r, hr, hx⟩
    rcases List.mem_append.mp hr with hb | he
    · obtain ⟨row, hrow, rfl⟩ := List.mem_map.mp hb
      have hcid : getCell row "Campus ID" = some x := by
        unfold OutRow.campusId at hx
        simp only at hx
        rw [alookup_map_some, map_some_bind_id] at hx
        exact hx
      exact ⟨(dl, sl), mem_readables hmemtl, mem_snapshotIds.mpr ⟨row, hrow, hcid⟩⟩
    · obtain ⟨cid, hcidm, rfl⟩ := List.mem_map.mp he
      have hx' : cid = x := by
        unfold OutRow.campusId at hx
        simp only at hx
        rw [alookup_setCell_ne (by decide), alookup_setCell_self] at hx
        simp only [Option.some_bind, id_eq, Option.some.injEq] at hx
        exact hx
      subst hx'
      have hkeys : cid ∈ (rosterFold tl).student_records.map Prod.fst :=
        (List.mem_filter.mp hcidm).1
      have hls : (lastMatch cid
          ((readables tl).flatMap (fun p => p.2.rows))).isSome = true := by
        rw [← hsr cid]
        exact (alookup_isSome_iff _ _).mpr hkeys
      obtain ⟨row, hrowm, hrc⟩ := (lastMatch_isSome cid _).mp hls
      obtain ⟨p, hp, hrp⟩ := List.mem_flatMap.mp hrowm
      exact ⟨p, hp, mem_snapshotIds.mpr ⟨row, hrp, hrc⟩⟩
  · rintro ⟨p, hp, hxp⟩
    obtain ⟨row0, hrow0, hrc0⟩ := mem_snapshotIds.mp hxp
    have hkeys : x ∈ (rosterFold tl).student_records.map Prod.fst := by
      rw [← alookup_isSome_iff, hsr x]
      exact (lastMatch_isSome x _).mpr
        ⟨row0, List.mem_flatMap.mpr ⟨p, hp, hrow0⟩, hrc0⟩
    by_cases hxin : x ∈ snapshotIds sl
    · obtain ⟨row, hrow, hrc⟩ := mem_snapshotIds.mp hxin
      refine ⟨_, List.mem_append.mpr (Or.inl (List.mem_map.mpr ⟨row, hrow, rfl⟩)), ?_⟩
      unfold OutRow.campusId
      simp only
      rw [alookup_map_some, map_some_bind_id]
      exact hrc
    · refine ⟨_, List.mem_append.mpr (Or.inr (List.mem_map.mpr
        ⟨x, List.mem_filter.mpr ⟨hkeys, by simp [hxin]⟩, rfl⟩)), ?_⟩
      unfold OutRow.campusId
      simp only
      rw [alookup_setCell_ne (by decide), alookup_setCell_self]
      rfl

/-! ## Error handling of the Reconciler (C7-C9) -/

theorem eq_nil_of_getLast?_none {α : Type} :
    ∀ {l : List α}, l.getLast? = none → l = []
  | [], _ => rfl
  | [a], h => by simp [List.getLast?_singleton] at h
  | a :: b :: l, h => by
    rw [List.getLast?_cons_cons] at h
    exact absurd (eq_nil_of_getLast?_none h) (by simp)

theorem rosterRun_filter_readable :
    ∀ (tl : Timeline) (st : RosterState),
      rosterRun st tl = rosterRun st (tl.filter (fun p => p.2.isSome))
  | [], st => rfl
  | (d, none) :: rest, st => by
    rw [show rosterRun st ((d, none) :: rest) = rosterRun st rest from rfl]
    rw [show ((d, none) :: rest).filter (fun p => p.2.isSome) =
        rest.filter (fun p => p.2.isSome) from by simp]
    exact rosterRun_filter_readable rest st
  | (d, some s) :: rest, st => by
    rw [show ((d, some s) :: rest).filter (fun p => p.2.isSome) =
        (d, some s) :: rest.filter (fun p => p.2.isSome) from by simp]
    rw [show rosterRun st ((d, some s) :: rest) =
        rosterRun (rosterStep st d (some s)) rest from rfl]
    rw [show rosterRun st ((d, some s) :: rest.filter (fun p => p.2.isSome)) =
        rosterRun (rosterStep st d (some s))
          (rest.filter (fun p => p.2.isSome)) from rfl]
    exact rosterRun_filter_readable rest _

theorem generate_roster_isSome (tl : Timeline) :
    (generate_enrollment_roster tl).isSome = true ↔
      ∃ dl sl, tl.getLast? = some (dl, some sl) ∧ "Campus ID" ∈ sl.cols := by
  cases hl : tl.getLast? with
  | none =>
    rw [eq_nil_of_getLast?_none hl]
    simp [generate_enrollment_roster]
  | some p =>
    obtain ⟨dl, o⟩ := p
    unfold generate_enrollment_roster
    rw [hl, isEmpty_false_of_getLast? hl]
    cases o with
    | none =>
      simp only [Bool.false_eq_true, if_false]
      constructor
      · intro h; simp at h
      · rintro ⟨dl', sl', hsome, -⟩
        simp at hsome
    | some sl =>
      simp only [Bool.false_eq_true, if_false]
      by_cases hc : "Campus ID" ∈ sl.cols
      · rw [if_pos hc]
        constructor
        · intro _; exact ⟨dl, sl, rfl, hc⟩
        · intro _; rfl
      · rw [if_neg hc]
        constructor
        · intro h; simp at h
        · rintro ⟨dl', sl', hsome, hc'⟩
          simp only [Option.some.injEq, Prod.mk.injEq] at hsome
          exact absurd hc' (hsome.2 ▸ hc)

/-- C7 amended: an unreadable snapshot is skipped without any state change
and without aborting the walk over the remaining snapshots, but the
Reconciler produces output precisely when the chronologically last snapshot
is readable and carries the id column — an unreadable final snapshot yields
no output even when earlier snapshots are usable. -/
theorem c7_skip_and_last_snapshot_gate (tl : Timeline) :
    (∀ (st : RosterState) (d : String), rosterStep st d none = st) ∧
    (∀ st : RosterState,
      rosterRun st tl = rosterRun st (tl.filter (fun p => p.2.isSome))) ∧
    ((generate_enrollment_roster tl).isSome = true ↔
      ∃ dl sl, tl.getLast? = some (dl, some sl) ∧ "Campus ID" ∈ sl.cols) :=
  ⟨fun _ _ => rfl, fun st => rosterRun_filter_readable tl st,
    generate_roster_isSome tl⟩

/-- A usable snapshot for the C7 counterexample. -/
def c7snap : Snapshot :=
  ⟨["Campus ID", "Status"], [[("Campus ID", "A"), ("Status", "Enrolled")]]⟩

/-- C7 counterexample: a timeline whose first snapshot is perfectly usable
but whose chronologically last snapshot is unreadable produces no output at
all, contradicting the claim that any timeline with at least one usable
snapshot yields the augmented output. -/
theorem c7_counterexample :
    Snapshot.WF c7snap ∧ c7snap.hasRosterCols ∧
    generate_enrollment_roster
      [("2026-01-01", some c7snap), ("2026-01-02", none)] = none :=
  ⟨by decide, by decide, rfl⟩

/-- The C8 counterexample snapshot: a readable CSV with a "Campus ID" column
but no "Status" column. -/
def c8snap : Snapshot := ⟨["Campus ID"], [[("Campus ID", "A")]]⟩

/-- C8 counterexample: processing the single snapshot of `c8tl` raises a
`KeyError` at the `row["Status"]` access and the snapshot is skipped (no
enrollment date, no drop, no previous-membership update), yet the
latest-known-row map retains the row inserted before the exception — the
skip is not atomic. -/
theorem c8_counterexample :
    Snapshot.WF c8snap ∧
    rosterFold [("2026-01-01", some c8snap)] =
      ⟨[], [], [("A", [("Campus ID", "A")])], []⟩ :=
  ⟨by decide, by decide⟩

/-- C8 amended: a file-level read failure is atomic (no state change); a
mid-snapshot `KeyError` skips the membership diff and the previous-set
update and, on a well-formed snapshot, leaves `enrollment_dates` and
`dropped_dates` unchanged, but the latest-known-row map keeps the updates
applied to rows processed before the exception. -/
theorem c8_amended_skip_not_atomic :
    (∀ (st : RosterState) (d : String), rosterStep st d none = st) ∧
    (∀ (st : RosterState) (d : String) (s : Snapshot)
      (e : List (String × String) × List (String × Row)),
      Snapshot.WF s →
      rosterRows d (st.enrollment_dates, st.student_records) s.rows = .error e →
      rosterStep st d (some s) = { st with student_records := e.2 }) := by
  refine ⟨fun st d => rfl, ?_⟩
  intro st d s e hwf herr
  have hed : e.1 = st.enrollment_dates := rosterRows_error_ed hwf herr
  rw [rosterStep_some_error herr, hed]

/-- Witness for the amended C8 theorem at the concrete counterexample
input. -/
theorem c8_amended_witness :
    rosterStep ⟨[], [], [], []⟩ "2026-01-01" (some c8snap) =
      { (⟨[], [], [], []⟩ : RosterState) with
        student_records := [("A", [("Campus ID", "A")])] } :=
  c8_amended_skip_not_atomic.2 ⟨[], [], [], []⟩ "2026-01-01" c8snap
    ([], [("A", [("Campus ID", "A")])]) (by decide) rfl

/-- The two snapshots of the C9 counterexample: the earlier one carries an
"Extra" column that the final one lacks. -/
def c9snapOld : Snapshot :=
  ⟨["Campus ID", "Status", "Extra"],
   [[("Campus ID", "A"), ("Status", "Enrolled"), ("Extra", "x")]]⟩

def c9snapNew : Snapshot :=
  ⟨["Campus ID", "Status"], [[("Campus ID", "B"), ("Status", "Enrolled")]]⟩

def c9tl : Timeline :=
  [("2026-01-01", some c9snapOld), ("2026-01-02", some c9snapNew)]

/-- C9 counterexample: student A's most recent row carries the field
"Extra" = "x", A is absent from the final snapshot and does get a
synthesized output row, but no output row carries an "Extra" field at all —
the full original field set is NOT carried through unchanged. -/
theorem c9_counterexample :
    RosterOK c9tl ∧
    latestRowSpec c9tl "A" =
      some [("Campus ID", "A"), ("Status", "Enrolled"), ("Extra", "x")] ∧
    (∃ r ∈ (generate_enrollment_roster c9tl).getD [],
      r.campusId = some "A") ∧
    ((generate_enrollment_roster c9tl).getD []).all
      (fun r => !(r.cells.any (fun p => p.1 = "Extra"))) = true :=
  ⟨by decide, by decide, by decide, by decide⟩

/-- C9 amended: the synthesized row for a student absent from the final
snapshot takes its base content from the student's row in the most recent
successfully read snapshot containing the student, projected onto the final
snapshot's column set (columns the base row lacks become null; columns of
the base row absent from the final snapshot are dropped), with the id
forced back and the status forced to the "Dropped" sentinel, and with the
first-occurrence lifecycle dates attached. -/
theorem c9_amended_projected_carry (tl : Timeline) (dl : String)
    (sl : Snapshot) (x : String) (base : Row) (hOK : RosterOK tl)
    (hlast : tl.getLast? = some (dl, some sl))
    (hlatest : latestRowSpec tl x = some base)
    (habs : ¬ x ∈ snapshotIds sl) :
    ({ cells := setCell (setCell (sl.cols.map (fun c => (c, getCell base c)))
          "Campus ID" (some x)) "Status" (some "Dropped"),
       enrollment_date := firstEnrolledDate tl x,
       dropped_date := firstDroppedDate tl x } : OutRow) ∈
      (generate_enrollment_roster tl).getD [] := by
  have hmemtl := mem_of_getLast? hlast
  obtain ⟨hwf, hcols⟩ := hOK (dl, some sl) hmemtl sl rfl
  rw [generate_roster_eq hlast hcols.1]
  simp only [Option.getD_some]
  apply List.mem_append.mpr
  right
  have hsr : alookup (rosterFold tl).student_records x = some base := by
    rw [rosterFold, rosterRun_sr x tl _ hOK]
    rw [show alookup (⟨[], [], [], []⟩ : RosterState).student_records x = none
      from rfl, ofirst_none_right]
    exact hlatest
  have hkeys : x ∈ (rosterFold tl).student_records.map Prod.fst :=
    (alookup_isSome_iff _ _).mp (by rw [hsr]; rfl)
  have hed : alookup (rosterFold tl).enrollment_dates x =
      firstEnrolledDate tl x := by
    rw [rosterFold, rosterRun_ed x tl _ hOK]; rfl
  have hdd : alookup (rosterFold tl).dropped_dates x =
      firstDroppedDate tl x := by
    rw [rosterFold, rosterRun_dd x tl _ hOK]
    show dropSpecGo x [] tl = _
    rw [firstDroppedDate_eq]
  apply List.mem_map.mpr
  refine ⟨x, List.mem_filter.mpr ⟨hkeys, by simp [habs]⟩, ?_⟩
  simp only [hsr, hed, hdd, Option.getD_some]

/-! ## Event Log Builder: per-row and per-snapshot lemmas -/

/-- The five columns read unconditionally by the report row loop are
present. -/
def reportCellsOk (r : Row) : Prop :=
  (getCell r "Campus ID").isSome ∧ (getCell r "First Name").isSome ∧
    (getCell r "Last Name").isSome ∧ (getCell r "Email Address").isSome ∧
    (getCell r "Status").isSome

theorem report_cells_present {s : Snapshot} (hwf : s.WF)
    (hcols : s.hasReportCols) : ∀ r ∈ s.rows, reportCellsOk r := by
  intro r hr
  obtain ⟨h1, h2, h3, h4, h5⟩ := hcols
  refine ⟨?_, ?_, ?_, ?_, ?_⟩ <;>
    exact (alookup_isSome_iff r _).mpr (by rw [hwf.1 r hr]; assumption)

/-- Stage 1 of a report row: `current_students[campus_id] = info`. -/
def rowC (acc : ReportAcc) (row : Row) : ReportAcc :=
  { acc with
    current_students :=
      upsert acc.current_students ((getCell row "Campus ID").getD "") (infoOf row) }

/-- Stage 2 of a report row: the new-enrollment check. -/
def rowN (prev : List (String × Info)) (acc : ReportAcc) (row : Row) :
    ReportAcc :=
  if (alookup prev ((getCell row "Campus ID").getD "")).isNone ∧
      (getCell row "Status").getD "" = "Enrolled"
  then { acc with new_students := acc.new_students ++ [infoOf row] }
  else acc

/-- Stage 3 of a report row: the withdrawal check. -/
def rowW (acc : ReportAcc) (row : Row) : ReportAcc :=
  if pyStrip ((getCell row "Status Notes").getD "") = "Withdrawn" ∧
      !(acc.withdrawn_set.contains ((getCell row "Campus ID").getD ""))
  then { acc with
    withdrawn_students := acc.withdrawn_students ++ [infoOf row],
    withdrawn_set := acc.withdrawn_set ++ [(getCell row "Campus ID").getD ""] }
  else acc

/-- The pure effect of one report row (valid when its cells are present). -/
def rowUpd (prev : List (String × Info)) (acc : ReportAcc) (row : Row) :
    ReportAcc :=
  rowW (rowN prev (rowC acc row) row) row

theorem reportRow_eq {prev : List (String × Info)} {acc : ReportAcc}
    {row : Row} (h : reportCellsOk row) :
    reportRow prev acc row = .ok (rowUpd prev acc row) := by
  obtain ⟨h1, h2, h3, h4, h5⟩ := h
  obtain ⟨c, hc⟩ := Option.isSome_iff_exists.mp h1
  obtain ⟨f, hf⟩ := Option.isSome_iff_exists.mp h2
  obtain ⟨l, hl⟩ := Option.isSome_iff_exists.mp h3
  obtain ⟨e, he⟩ := Option.isSome_iff_exists.mp h4
  obtain ⟨sv, hsv⟩ := Option.isSome_iff_exists.mp h5
  unfold reportRow rowUpd rowC rowN rowW infoOf
  simp only [hc, hf, hl, he, hsv, Option.getD_some]

theorem reportRows_eq {prev : List (String × Info)} :
    ∀ (rows : List Row) (acc : ReportAcc), (∀ r ∈ rows, reportCellsOk r) →
      reportRows prev acc rows = .ok (rows.foldl (rowUpd prev) acc)
  | [], acc, _ => rfl
  | r :: rest, acc, h => by
    unfold reportRows
    rw [reportRow_eq (h r (List.mem_cons_self r rest)), List.foldl_cons]
    exact reportRows_eq rest _ (fun r hr => h r (List.mem_cons_of_mem _ hr))

/-- The filter the report applies for new students (line 204), as a pure
predicate over a row. -/
def newPred (prev : List (String × Info)) (r : Row) : Bool :=
  (alookup prev ((getCell r "Campus ID").getD "")).isNone &&
    ((getCell r "Status").getD "" == "Enrolled")

/-- The filter the report applies for withdrawals (line 208), relative to a
given withdrawn set. -/
def wPred (wset : List String) (r : Row) : Bool :=
  wRow r && !(wset.contains ((getCell r "Campus ID").getD ""))

theorem rowUpd_new (prev : List (String × Info)) (acc : ReportAcc) (row : Row) :
    (rowUpd prev acc row).new_students =
      acc.new_students ++ (if newPred prev row then [infoOf row] else []) := by
  unfold rowUpd rowC rowN rowW newPred
  by_cases hn : (alookup prev ((getCell row "Campus ID").getD "")).isNone ∧
      (getCell row "Status").getD "" = "Enrolled"
  · rw [if_pos hn]
    have hb : ((alookup prev ((getCell row "Campus ID").getD "")).isNone &&
        ((getCell row "Status").getD "" == "Enrolled")) = true := by
      simp [hn.1, hn.2]
    rw [hb, if_pos rfl]
    split <;> rfl
  · rw [if_neg hn]
    have hb : ((alookup prev ((getCell row "Campus ID").getD "")).isNone &&
        ((getCell row "Status").getD "" == "Enrolled")) = false := by
      rcases not_and_or.mp hn with h | h
      · simp only [Bool.not_eq_true] at h
        simp [h]
      · simp [h]
    rw [hb]
    simp only [Bool.false_eq_true, if_false, List.append_nil]
    split <;> rfl

theorem rowUpd_current (prev : List (String × Info)) (acc : ReportAcc)
    (row : Row) :
    (rowUpd prev acc row).current_students =
      upsert acc.current_students ((getCell row "Campus ID").getD "")
        (infoOf row) := by
  unfold rowUpd rowC rowN rowW
  split <;> split <;> rfl

theorem rowUpd_wthn (prev : List (String × Info)) (acc : ReportAcc) (row : Row) :
    (rowUpd prev acc row).withdrawn_students =
      acc.withdrawn_students ++
        (if wPred acc.withdrawn_set row then [infoOf row] else []) ∧
    (rowUpd prev acc row).withdrawn_set =
      acc.withdrawn_set ++
        (if wPred acc.withdrawn_set row
         then [(getCell row "Campus ID").getD ""] else []) := by
  have hsets : (rowN prev (rowC acc row) row).withdrawn_set =
      acc.withdrawn_set ∧
      (rowN prev (rowC acc row) row).withdrawn_students =
        acc.withdrawn_students := by
    unfold rowN rowC; split <;> exact ⟨rfl, rfl⟩
  unfold rowUpd rowW wPred
  rw [hsets.1, hsets.2]
  by_cases hws : pyStrip ((getCell row "Status Notes").getD "") = "Withdrawn"
  · have hwr : wRow row = true := by simp [wRow, hws]
    by_cases hmem : (getCell row "Campus ID").getD "" ∈ acc.withdrawn_set
    · simp [hws, hwr, hmem, hsets.1, hsets.2]
    · simp [hws, hwr, hmem, hsets.1, hsets.2]
  · have hwr : wRow row = false := by simp [wRow, hws]
    simp [hws, hwr, hsets.1, hsets.2]

theorem foldl_rowUpd_new (prev : List (String × Info)) :
    ∀ (rows : List Row) (acc : ReportAcc),
      (rows.foldl (rowUpd prev) acc).new_students =
        acc.new_students ++ (rows.filter (newPred prev)).map infoOf
  | [], acc => by simp
  | r :: rest, acc => by
    rw [List.foldl_cons, foldl_rowUpd_new prev rest _, rowUpd_new,
      List.filter_cons]
    by_cases hn : newPred prev r = true
    · simp [hn]
    · simp only [Bool.not_eq_true] at hn
      simp [hn]

theorem foldl_rowUpd_current (prev : List (String × Info)) :
    ∀ (rows : List Row) (acc : ReportAcc) (y : String),
      (alookup (rows.foldl (rowUpd prev) acc).current_students y).isSome =
          true ↔
        ((alookup acc.current_students y).isSome = true ∨
          ∃ r ∈ rows, (getCell r "Campus ID").getD "" = y)
  | [], acc, y => by simp
  | r :: rest, acc, y => by
    rw [List.foldl_cons, foldl_rowUpd_current prev rest _ y]
    constructor
    · rintro (hs | hex)
      · rw [rowUpd_current, alookup_upsert] at hs
        by_cases hcy : (getCell r "Campus ID").getD "" = y
        · exact Or.inr ⟨r, List.mem_cons_self r rest, hcy⟩
        · rw [if_neg hcy] at hs
          exact Or.inl hs
      · obtain ⟨r', hr', hy⟩ := hex
        exact Or.inr ⟨r', List.mem_cons_of_mem _ hr', hy⟩
    · rintro (hs | ⟨r', hr', hy⟩)
      · left
        rw [rowUpd_current, alookup_upsert]
        by_cases hcy : (getCell r "Campus ID").getD "" = y
        · rw [if_pos hcy]; rfl
        · rw [if_neg hcy]; exact hs
      · rcases List.mem_cons.mp hr' with rfl | hm
        · left
          rw [rowUpd_current, alookup_upsert, if_pos hy]
          rfl
        · exact Or.inr ⟨r', hm, hy⟩

theorem foldl_rowUpd_wset (prev : List (String × Info)) :
    ∀ (rows : List Row) (acc : ReportAcc) (y : String),
      (y ∈ (rows.foldl (rowUpd prev) acc).withdrawn_set ↔
        (y ∈ acc.withdrawn_set ∨
          ∃ r ∈ rows, (getCell r "Campus ID").getD "" = y ∧ wRow r = true))
  | [], acc, y => by simp
  | r :: rest, acc, y => by
    rw [List.foldl_cons, foldl_rowUpd_wset prev rest _ y, (rowUpd_wthn prev acc r).2]
    constructor
    · rintro (hs | hex)
      · rcases List.mem_append.mp hs with hs | hs
        · exact Or.inl hs
        · by_cases hp : wPred acc.withdrawn_set r = true
          · rw [if_pos hp] at hs
            simp only [List.mem_singleton] at hs
            have hw : wRow r = true := by
              simp only [wPred, Bool.and_eq_true] at hp
              exact hp.1
            exact Or.inr ⟨r, List.mem_cons_self r rest, hs.symm, hw⟩
          · simp only [Bool.not_eq_true] at hp
            rw [hp] at hs
            simp at hs
      · obtain ⟨r', hr', hy, hw⟩ := hex
        exact Or.inr ⟨r', List.mem_cons_of_mem _ hr', hy, hw⟩
    · rintro (hs | ⟨r', hr', hy, hw⟩)
      · exact Or.inl (List.mem_append.mpr (Or.inl hs))
      · rcases List.mem_cons.mp hr' with rfl | hm
        · left
          by_cases hin : y ∈ acc.withdrawn_set
          · exact List.mem_append.mpr (Or.inl hin)
          · have hp : wPred acc.withdrawn_set r' = true := by
              simp only [wPred, Bool.and_eq_true]
              refine ⟨hw, ?_⟩
              rw [hy]
              simp [hin]
            rw [if_pos hp]
            exact List.mem_append.mpr (Or.inr (by simp [hy]))
        · exact Or.inr ⟨r', hm, hy, hw⟩

theorem foldl_rowUpd_withdrawn (prev : List (String × Info)) :
    ∀ (rows : List Row) (acc : ReportAcc),
      (∀ r ∈ rows, (getCell r "Campus ID").isSome) →
      (rows.filterMap (fun r => getCell r "Campus ID")).Nodup →
      (rows.foldl (rowUpd prev) acc).withdrawn_students =
        acc.withdrawn_students ++
          (rows.filter (wPred acc.withdrawn_set)).map infoOf
  | [], acc, _, _ => by simp
  | r :: rest, acc, hc, hnd => by
    obtain ⟨c, hcr⟩ := Option.isSome_iff_exists.mp
      (hc r (List.mem_cons_self r rest))
    have hnd' : (c :: rest.filterMap (fun r => getCell r "Campus ID")).Nodup := by
      rw [show (r :: rest).filterMap (fun r => getCell r "Campus ID") =
        c :: rest.filterMap (fun r => getCell r "Campus ID") from by
          simp [List.filterMap_cons, hcr]] at hnd
      exact hnd
    have hcnotin : ¬ c ∈ rest.filterMap (fun r => getCell r "Campus ID") :=
      (List.nodup_cons.mp hnd').1
    have hco : ∀ c' : String, ¬ c' = c →
        (((rowUpd prev acc r).withdrawn_set).contains c') =
          (acc.withdrawn_set.contains c') := by
      intro c' hcc
      rw [(rowUpd_wthn prev acc r).2, hcr]
      simp only [Option.getD_some]
      by_cases hp : wPred acc.withdrawn_set r = true
      · rw [if_pos hp]
        by_cases hm : c' ∈ acc.withdrawn_set
        · simp [hm]
        · simp [hm, hcc]
      · simp only [Bool.not_eq_true] at hp
        rw [hp]
        simp
    have hfilter : rest.filter (wPred (rowUpd prev acc r).withdrawn_set) =
        rest.filter (wPred acc.withdrawn_set) := by
      apply List.filter_congr
      intro r' hr'
      obtain ⟨c', hc'⟩ := Option.isSome_iff_exists.mp
        (hc r' (List.mem_cons_of_mem _ hr'))
      have hcc : ¬ c' = c := by
        intro hcc
        exact hcnotin (hcc ▸ List.mem_filterMap.mpr ⟨r', hr', hc'⟩)
      unfold wPred
      rw [hc']
      simp only [Option.getD_some]
      rw [hco c' hcc]
    rw [List.foldl_cons,
      foldl_rowUpd_withdrawn prev rest (rowUpd prev acc r)
        (fun r' hr' => hc r' (List.mem_cons_of_mem _ hr'))
        (List.nodup_cons.mp hnd').2,
      hfilter, (rowUpd_wthn prev acc r).1, List.filter_cons]
    by_cases hp : wPred acc.withdrawn_set r = true
    · simp [hp]
    · simp only [Bool.not_eq_true] at hp
      simp [hp]

/-! ## Event Log Builder: fold-level lemmas -/

theorem reportStep_none (st : ReportState) (d : String) :
    reportStep st d none = st := rfl

theorem reportStep_some_error_eq {st : ReportState} {d : String} {s : Snapshot}
    {acc : ReportAcc}
    (h : reportRows st.previous_students ⟨[], [], [], st.withdrawn_set⟩ s.rows =
      .error acc) :
    reportStep st d (some s) = { st with withdrawn_set := acc.withdrawn_set } := by
  show ((match reportRows st.previous_students
          (⟨[], [], [], st.withdrawn_set⟩ : ReportAcc) s.rows with
        | .error acc => { st with withdrawn_set := acc.withdrawn_set }
        | .ok acc =>
          { previous_students := acc.current_students,
            withdrawn_set := acc.withdrawn_set,
            events_by_date := st.events_by_date ++
              [⟨d, acc.new_students,
                (st.previous_students.filter
                  (fun p => (alookup acc.current_students p.1).isNone)).map
                    Prod.snd,
                acc.withdrawn_students⟩] }) : ReportState) = _
  rw [h]

theorem reportStep_some_ok_eq {st : ReportState} {d : String} {s : Snapshot}
    {acc : ReportAcc}
    (h : reportRows st.previous_students ⟨[], [], [], st.withdrawn_set⟩ s.rows =
      .ok acc) :
    reportStep st d (some s) =
      { previous_students := acc.current_students,
        withdrawn_set := acc.withdrawn_set,
        events_by_date := st.events_by_date ++
          [⟨d, acc.new_students,
            (st.previous_students.filter
              (fun p => (alookup acc.current_students p.1).isNone)).map
                Prod.snd,
            acc.withdrawn_students⟩] } := by
  show ((match reportRows st.previous_students
          (⟨[], [], [], st.withdrawn_set⟩ : ReportAcc) s.rows with
        | .error acc => { st with withdrawn_set := acc.withdrawn_set }
        | .ok acc =>
          { previous_students := acc.current_students,
            withdrawn_set := acc.withdrawn_set,
            events_by_date := st.events_by_date ++
              [⟨d, acc.new_students,
                (st.previous_students.filter
                  (fun p => (alookup acc.current_students p.1).isNone)).map
                    Prod.snd,
                acc.withdrawn_students⟩] }) : ReportState) = _
  rw [h]

theorem reportStep_lit_error_eq {prev : List (String × Info)}
    {wset : List String} {E : List DateEvent} {d : String} {s : Snapshot}
    {acc : ReportAcc}
    (h : reportRows prev (⟨[], [], [], wset⟩ : ReportAcc) s.rows = .error acc) :
    reportStep ⟨prev, wset, E⟩ d (some s) = ⟨prev, acc.withdrawn_set, E⟩ := by
  rw [@reportStep_some_error_eq ⟨prev, wset, E⟩ d _ _ h]

theorem reportStep_lit_ok_eq {prev : List (String × Info)}
    {wset : List String} {E : List DateEvent} {d : String} {s : Snapshot}
    {acc : ReportAcc}
    (h : reportRows prev (⟨[], [], [], wset⟩ : ReportAcc) s.rows = .ok acc) :
    reportStep ⟨prev, wset, E⟩ d (some s) =
      ⟨acc.current_students, acc.withdrawn_set,
        E ++ [⟨d, acc.new_students,
          (prev.filter (fun p =>
            (alookup acc.current_students p.1).isNone)).map Prod.snd,
          acc.withdrawn_students⟩]⟩ := by
  rw [@reportStep_some_ok_eq ⟨prev, wset, E⟩ d _ _ h]

theorem reportRun_filter_readable :
    ∀ (tl : Timeline) (st : ReportState),
      reportRun st tl = reportRun st (tl.filter (fun p => p.2.isSome))
  | [], st => rfl
  | (d, none) :: rest, st => by
    rw [show reportRun st ((d, none) :: rest) = reportRun st rest from rfl]
    rw [show ((d, none) :: rest).filter (fun p => p.2.isSome) =
        rest.filter (fun p => p.2.isSome) from by simp]
    exact reportRun_filter_readable rest st
  | (d, some s) :: rest, st => by
    rw [show ((d, some s) :: rest).filter (fun p => p.2.isSome) =
        (d, some s) :: rest.filter (fun p => p.2.isSome) from by simp]
    rw [show reportRun st ((d, some s) :: rest) =
        reportRun (reportStep st d (some s)) rest from rfl]
    rw [show reportRun st ((d, some s) :: rest.filter (fun p => p.2.isSome)) =
        reportRun (reportStep st d (some s))
          (rest.filter (fun p => p.2.isSome)) from rfl]
    exact reportRun_filter_readable rest _

theorem reportRun_dates :
    ∀ (tl : Timeline) (st : ReportState), ReportOK tl →
      ((reportRun st tl).events_by_date).map (fun e => e.date) =
        (st.events_by_date).map (fun e => e.date) ++ (readables tl).map Prod.fst
  | [], st, _ => by
    rw [show reportRun st [] = st from rfl,
      show readables ([] : Timeline) = [] from rfl]
    simp
  | (d, none) :: rest, st, hOK => by
    rw [show reportRun st ((d, none) :: rest) = reportRun st rest from rfl,
      readables_cons_none]
    exact reportRun_dates rest st (reportOK_cons hOK).2
  | (d, some s) :: rest, st, hOK => by
    obtain ⟨hs, hOKrest⟩ := reportOK_cons hOK
    obtain ⟨hwf, hcols⟩ := hs s rfl
    have hok := @reportRows_eq st.previous_students s.rows
      (⟨[], [], [], st.withdrawn_set⟩ : ReportAcc)
      (report_cells_present hwf hcols)
    rw [show reportRun st ((d, some s) :: rest) =
        reportRun (reportStep st d (some s)) rest from rfl,
      reportStep_some_ok_eq hok,
      reportRun_dates rest _ hOKrest, readables_cons_some]
    simp

theorem reportRun_events_decompose :
    ∀ (tl : Timeline) (prev : List (String × Info)) (wset : List String)
      (E : List DateEvent),
      reportRun ⟨prev, wset, E⟩ tl =
        { reportRun ⟨prev, wset, []⟩ tl with
          events_by_date :=
            E ++ (reportRun ⟨prev, wset, []⟩ tl).events_by_date }
  | [], prev, wset, E => by
    rw [show reportRun (⟨prev, wset, E⟩ : ReportState) [] = ⟨prev, wset, E⟩
      from rfl]
    rw [show reportRun (⟨prev, wset, []⟩ : ReportState) [] = ⟨prev, wset, []⟩
      from rfl]
    simp
  | (d, none) :: rest, prev, wset, E => by
    rw [show reportRun (⟨prev, wset, E⟩ : ReportState) ((d, none) :: rest) =
      reportRun ⟨prev, wset, E⟩ rest from rfl]
    rw [show reportRun (⟨prev, wset, []⟩ : ReportState) ((d, none) :: rest) =
      reportRun ⟨prev, wset, []⟩ rest from rfl]
    exact reportRun_events_decompose rest prev wset E
  | (d, some s) :: rest, prev, wset, E => by
    rw [show reportRun (⟨prev, wset, E⟩ : ReportState) ((d, some s) :: rest) =
      reportRun (reportStep ⟨prev, wset, E⟩ d (some s)) rest from rfl]
    rw [show reportRun (⟨prev, wset, []⟩ : ReportState) ((d, some s) :: rest) =
      reportRun (reportStep ⟨prev, wset, []⟩ d (some s)) rest from rfl]
    cases hres : reportRows prev ⟨[], [], [], wset⟩ s.rows with
    | error acc =>
      rw [reportStep_lit_error_eq hres, reportStep_lit_error_eq hres]
      exact reportRun_events_decompose rest prev acc.withdrawn_set E
    | ok acc =>
      rw [reportStep_lit_ok_eq hres, reportStep_lit_ok_eq hres]
      rw [reportRun_events_decompose rest acc.current_students
        acc.withdrawn_set
        (E ++ [DateEvent.mk d acc.new_students
          ((prev.filter (fun p =>
            (alookup acc.current_students p.1).isNone)).map Prod.snd)
          acc.withdrawn_students])]
      rw [reportRun_events_decompose rest acc.current_students
        acc.withdrawn_set
        ([] ++ [DateEvent.mk d acc.new_students
          ((prev.filter (fun p =>
            (alookup acc.current_students p.1).isNone)).map Prod.snd)
          acc.withdrawn_students])]
      simp

theorem readables_dates_sublist :
    ∀ tl : Timeline,
      List.Sublist ((readables tl).map Prod.fst) (tl.map Prod.fst)
  | [] => List.Sublist.refl []
  | (d, none) :: rest => by
    rw [readables_cons_none, List.map_cons]
    exact (readables_dates_sublist rest).cons d
  | (d, some s) :: rest => by
    rw [readables_cons_some, List.map_cons, List.map_cons]
    exact (readables_dates_sublist rest).cons₂ d

theorem generate_report_eq_of_readables {tl : Timeline} (hOK : ReportOK tl)
    (hne : readables tl ≠ []) :
    generate_enrollment_report tl = some (reportEvents tl) := by
  have hdates : (reportEvents tl).map (fun e => e.date) =
      (readables tl).map Prod.fst := by
    have h := reportRun_dates tl ⟨[], [], []⟩ hOK
    simpa [reportEvents] using h
  have hne2 : reportEvents tl ≠ [] := by
    intro h
    apply hne
    rw [h] at hdates
    exact List.map_eq_nil_iff.mp hdates.symm
  have htl : tl ≠ [] := by
    intro h
    apply hne
    rw [h]
    rfl
  have hemp : tl.isEmpty = false := by
    cases tl with
    | nil => exact absurd rfl htl
    | cons a l => rfl
  have hevs : (reportEvents tl).isEmpty = false := by
    cases h : reportEvents tl with
    | nil => exact absurd h hne2
    | cons a l => rfl
  simp only [generate_enrollment_report, hemp, hevs, Bool.false_eq_true,
    if_false]

/-- C4: the Event Log Builder emits exactly one DateEvent per successfully
read snapshot, in timeline order (hence ascending when the input dates are
ascending); unreadable snapshots contribute no event and do not perturb the
running state used as the comparison baseline (folding over the timeline
equals folding over its readable subsequence); and whenever at least one
snapshot is readable the report is produced. -/
theorem c4_event_log_shape (tl : Timeline) (hOK : ReportOK tl) :
    (∀ st : ReportState,
      reportRun st tl = reportRun st (tl.filter (fun p => p.2.isSome))) ∧
    ((reportEvents tl).map (fun e => e.date) = (readables tl).map Prod.fst) ∧
    (∀ R : String → String → Prop, (tl.map Prod.fst).Pairwise R →
      ((reportEvents tl).map (fun e => e.date)).Pairwise R) ∧
    (readables tl ≠ [] →
      generate_enrollment_report tl = some (reportEvents tl)) := by
  have hdates : (reportEvents tl).map (fun e => e.date) =
      (readables tl).map Prod.fst := by
    have h := reportRun_dates tl ⟨[], [], []⟩ hOK
    simpa [reportEvents] using h
  refine ⟨fun st => reportRun_filter_readable tl st, hdates, ?_, ?_⟩
  · intro R hR
    rw [hdates]
    exact hR.sublist (readables_dates_sublist tl)
  · exact fun hne => generate_report_eq_of_readables hOK hne

theorem c5_go :
    ∀ (tl : Timeline) (prev : List (String × Info)) (wset : List String)
      (p? : Option (String × Snapshot)), ReportOK tl →
      (∀ y : String, (alookup prev y).isSome = true ↔ y ∈ prevIdsOf p?) →
      ∀ q ∈ ((reportRun ⟨prev, wset, []⟩ tl).events_by_date).zip
          ((p? :: (readables tl).map some).zip (readables tl)),
        q.1.new_students = newSpec (prevIdsOf q.2.1) q.2.2.2
  | [], prev, wset, p?, _, _ => by
    intro q hq
    rw [show reportRun (⟨prev, wset, []⟩ : ReportState) [] = ⟨prev, wset, []⟩
      from rfl] at hq
    simp at hq
  | (d, none) :: rest, prev, wset, p?, hOK, hinv => by
    intro q hq
    rw [show reportRun (⟨prev, wset, []⟩ : ReportState) ((d, none) :: rest) =
      reportRun ⟨prev, wset, []⟩ rest from rfl, readables_cons_none] at hq
    exact c5_go rest prev wset p? (reportOK_cons hOK).2 hinv q hq
  | (d, some s) :: rest, prev, wset, p?, hOK, hinv => by
    obtain ⟨hs, hOKrest⟩ := reportOK_cons hOK
    obtain ⟨hwf, hcols⟩ := hs s rfl
    have hok := @reportRows_eq prev s.rows
      (⟨[], [], [], wset⟩ : ReportAcc) (report_cells_present hwf hcols)
    set acc := s.rows.foldl (rowUpd prev) (⟨[], [], [], wset⟩ : ReportAcc)
      with hacc
    intro q hq
    rw [show reportRun (⟨prev, wset, []⟩ : ReportState) ((d, some s) :: rest) =
      reportRun (reportStep ⟨prev, wset, []⟩ d (some s)) rest from rfl,
      reportStep_lit_ok_eq hok] at hq
    rw [reportRun_events_decompose rest acc.current_students
      acc.withdrawn_set
      ([] ++ [DateEvent.mk d acc.new_students
        ((prev.filter (fun p =>
          (alookup acc.current_students p.1).isNone)).map Prod.snd)
        acc.withdrawn_students])] at hq
    simp only [List.nil_append, List.singleton_append, readables_cons_some,
      List.map_cons, List.zip_cons_cons] at hq
    have hinv' : ∀ y : String, (alookup acc.current_students y).isSome = true ↔
        y ∈ prevIdsOf (some (d, s)) := by
      intro y
      rw [hacc, foldl_rowUpd_current prev s.rows _ y]
      constructor
      · rintro (habs | ⟨r, hr, hy⟩)
        · simp [alookup] at habs
        · obtain ⟨c, hcr⟩ := Option.isSome_iff_exists.mp
            ((report_cells_present hwf hcols r hr).1)
          have hcy : getCell r "Campus ID" = some y := by
            rw [hcr]
            rw [hcr] at hy
            simpa using hy
          exact mem_snapshotIds.mpr ⟨r, hr, hcy⟩
      · intro hy
        obtain ⟨r, hr, hcr⟩ := mem_snapshotIds.mp hy
        exact Or.inr ⟨r, hr, by rw [hcr]; rfl⟩
    rcases List.mem_cons.mp hq with rfl | hq'
    · show acc.new_students = newSpec (prevIdsOf p?) s
      rw [hacc, foldl_rowUpd_new]
      rw [show (⟨[], [], [], wset⟩ : ReportAcc).new_students = [] from rfl,
        List.nil_append]
      unfold newSpec
      congr 1
      apply List.filter_congr
      intro r hr
      obtain ⟨hc1, -, -, -, hc5⟩ := report_cells_present hwf hcols r hr
      obtain ⟨c, hcr⟩ := Option.isSome_iff_exists.mp hc1
      obtain ⟨sv, hsv⟩ := Option.isSome_iff_exists.mp hc5
      unfold newPred
      rw [hcr, hsv]
      simp only [Option.getD_some]
      have hnone : ((alookup prev c).isNone = true) ↔ ¬ c ∈ prevIdsOf p? := by
        rw [← hinv c]
        cases alookup prev c <;> simp
      have hsvb2 : ((some sv == some "Enrolled") = true) ↔ sv = "Enrolled" := by
        simp
      have hcont : ((!((prevIdsOf p?).contains c)) = true) ↔
          ¬ c ∈ prevIdsOf p? := by simp
      apply Bool.coe_iff_coe.mp
      rw [Bool.and_eq_true, Bool.and_eq_true, hnone, hsvb2, hcont, beq_iff_eq]
      exact and_comm
    · exact c5_go rest acc.current_students acc.withdrawn_set (some (d, s))
        hOKrest hinv' q hq'

/-- C5: in every emitted DateEvent, `new_students` is exactly the rows of
that snapshot whose status is exactly "Enrolled" and whose id is absent from
the immediately preceding successfully read snapshot (absent with any
status); for the first readable snapshot the baseline is empty, so a student
who drops and returns as "Enrolled" is reported new again. -/
theorem c5_new_relative_to_previous (tl : Timeline) (hOK : ReportOK tl) :
    ∀ q ∈ (reportEvents tl).zip
        ((none :: (readables tl).map some).zip (readables tl)),
      q.1.new_students = newSpec (prevIdsOf q.2.1) q.2.2.2 := by
  have h := c5_go tl [] [] none hOK (by intro y; simp [prevIdsOf, alookup])
  exact h

theorem c6_go :
    ∀ (tl : Timeline) (prev : List (String × Info)) (wset : List String)
      (seen : List Snapshot), ReportOK tl →
      (∀ y : String, y ∈ wset ↔ ∃ s0 ∈ seen, hasW s0 y = true) →
      ((reportRun ⟨prev, wset, []⟩ tl).events_by_date).map
          (fun e => e.withdrawn_students) =
        (wRowsGo seen (readables tl)).map (fun l => l.map infoOf)
  | [], prev, wset, seen, _, _ => by
    rw [show reportRun (⟨prev, wset, []⟩ : ReportState) [] = ⟨prev, wset, []⟩
      from rfl]
    rfl
  | (d, none) :: rest, prev, wset, seen, hOK, hinvw => by
    rw [show reportRun (⟨prev, wset, []⟩ : ReportState) ((d, none) :: rest) =
      reportRun ⟨prev, wset, []⟩ rest from rfl, readables_cons_none]
    exact c6_go rest prev wset seen (reportOK_cons hOK).2 hinvw
  | (d, some s) :: rest, prev, wset, seen, hOK, hinvw => by
    obtain ⟨hs, hOKrest⟩ := reportOK_cons hOK
    obtain ⟨hwf, hcols⟩ := hs s rfl
    have hok := @reportRows_eq prev s.rows
      (⟨[], [], [], wset⟩ : ReportAcc) (report_cells_present hwf hcols)
    set acc := s.rows.foldl (rowUpd prev) (⟨[], [], [], wset⟩ : ReportAcc)
      with hacc
    rw [show reportRun (⟨prev, wset, []⟩ : ReportState) ((d, some s) :: rest) =
      reportRun (reportStep ⟨prev, wset, []⟩ d (some s)) rest from rfl,
      reportStep_lit_ok_eq hok]
    rw [reportRun_events_decompose rest acc.current_students
      acc.withdrawn_set
      ([] ++ [DateEvent.mk d acc.new_students
        ((prev.filter (fun p =>
          (alookup acc.current_students p.1).isNone)).map Prod.snd)
        acc.withdrawn_students])]
    rw [readables_cons_some,
      show wRowsGo seen ((d, s) :: readables rest) =
        s.rows.filter (rowFreshSeen seen) :: wRowsGo (seen ++ [s])
          (readables rest) from rfl]
    simp only [List.nil_append, List.singleton_append, List.map_cons]
    have hcells := report_cells_present hwf hcols
    have hinvw' : ∀ y : String, y ∈ acc.withdrawn_set ↔
        ∃ s0 ∈ seen ++ [s], hasW s0 y = true := by
      intro y
      rw [hacc, foldl_rowUpd_wset prev s.rows _ y]
      rw [show (⟨[], [], [], wset⟩ : ReportAcc).withdrawn_set = wset from rfl]
      constructor
      · rintro (hw | ⟨r, hr, hy, hwr⟩)
        · obtain ⟨s0, hs0, hw0⟩ := (hinvw y).mp hw
          exact ⟨s0, List.mem_append.mpr (Or.inl hs0), hw0⟩
        · refine ⟨s, List.mem_append.mpr (Or.inr (by simp)), ?_⟩
          obtain ⟨c, hcr⟩ := Option.isSome_iff_exists.mp ((hcells r hr).1)
          rw [hcr] at hy
          simp only [Option.getD_some] at hy
          rw [hasW, List.any_eq_true]
          exact ⟨r, hr, by simp [hcr, hy, hwr]⟩
      · rintro ⟨s0, hs0, hw0⟩
        rcases List.mem_append.mp hs0 with hs0l | hs0r
        · exact Or.inl ((hinvw y).mpr ⟨s0, hs0l, hw0⟩)
        · have hss : s0 = s := by simpa using hs0r
          subst hss
          rw [hasW, List.any_eq_true] at hw0
          obtain ⟨r, hr, hb⟩ := hw0
          rw [Bool.and_eq_true, beq_iff_eq] at hb
          exact Or.inr ⟨r, hr, by rw [hb.1]; rfl, hb.2⟩
    congr 1
    · show acc.withdrawn_students = (s.rows.filter (rowFreshSeen seen)).map infoOf
      rw [hacc, foldl_rowUpd_withdrawn prev s.rows _
        (fun r hr => (hcells r hr).1) hwf.2]
      rw [show (⟨[], [], [], wset⟩ : ReportAcc).withdrawn_students = [] from rfl,
        List.nil_append,
        show (⟨[], [], [], wset⟩ : ReportAcc).withdrawn_set = wset from rfl]
      congr 1
      apply List.filter_congr
      intro r hr
      obtain ⟨c, hcr⟩ := Option.isSome_iff_exists.mp ((hcells r hr).1)
      unfold wPred rowFreshSeen
      rw [hcr]
      simp only [Option.getD_some]
      congr 1
      congr 1
      apply Bool.coe_iff_coe.mp
      constructor
      · intro hcon
        have hcm : c ∈ wset := by simpa using hcon
        obtain ⟨s0, hs0, hw0⟩ := (hinvw c).mp hcm
        rw [List.any_eq_true]
        exact ⟨s0, hs0, hw0⟩
      · intro hany
        rw [List.any_eq_true] at hany
        obtain ⟨s0, hs0, hw0⟩ := hany
        have hcm : c ∈ wset := (hinvw c).mpr ⟨s0, hs0, hw0⟩
        simpa using hcm
    · exact c6_go rest acc.current_students acc.withdrawn_set (seen ++ [s])
        hOKrest hinvw'

theorem wRowsGo_first (x : String) :
    ∀ (L : List (String × Snapshot)) (seen : List Snapshot),
      ((L.zip (wRowsGo seen L)).filterMap (fun q =>
        if q.2.any (fun r => getCell r "Campus ID" == some x) then some q.1.1
        else none)) =
      (if ∃ s0 ∈ seen, hasW s0 x = true then []
       else (((L.filter (fun p => hasW p.2 x)).head?.map Prod.fst).toList))
  | [], seen => by
    rw [show wRowsGo seen [] = [] from rfl]
    simp
  | (d, s) :: rest, seen => by
    rw [show wRowsGo seen ((d, s) :: rest) =
      s.rows.filter (rowFreshSeen seen) :: wRowsGo (seen ++ [s]) rest from rfl]
    rw [List.zip_cons_cons, List.filterMap_cons]
    have hrep : ((s.rows.filter (rowFreshSeen seen)).any
        (fun r => getCell r "Campus ID" == some x) = true) ↔
        (hasW s x = true ∧ ¬ ∃ s0 ∈ seen, hasW s0 x = true) := by
      rw [List.any_eq_true]
      constructor
      · rintro ⟨r, hrf, hrx⟩
        obtain ⟨hfr, hfresh⟩ := List.mem_filter.mp hrf
        rw [beq_iff_eq] at hrx
        rw [rowFreshSeen, hrx, Bool.and_eq_true] at hfresh
        constructor
        · rw [hasW, List.any_eq_true]
          exact ⟨r, hfr, by simp [hrx, hfresh.1]⟩
        · intro hex
          obtain ⟨s0, hs0, hw0⟩ := hex
          have := hfresh.2
          simp only [Bool.not_eq_true'] at this
          rw [List.any_eq_false] at this
          exact absurd hw0 (by simpa using this s0 hs0)
      · rintro ⟨hW, hnex⟩
        rw [hasW, List.any_eq_true] at hW
        obtain ⟨r, hr, hb⟩ := hW
        rw [Bool.and_eq_true, beq_iff_eq] at hb
        refine ⟨r, List.mem_filter.mpr ⟨hr, ?_⟩, by simp [hb.1]⟩
        rw [rowFreshSeen, hb.1, Bool.and_eq_true]
        refine ⟨hb.2, ?_⟩
        simp only [Bool.not_eq_true']
        rw [List.any_eq_false]
        intro s0 hs0
        simp only [Bool.not_eq_true]
        cases hw0 : hasW s0 x with
        | false => rfl
        | true => exact absurd ⟨s0, hs0, hw0⟩ hnex
    by_cases hseen : ∃ s0 ∈ seen, hasW s0 x = true
    · have hrepf : ((s.rows.filter (rowFreshSeen seen)).any
          (fun r => getCell r "Campus ID" == some x)) = false := by
        cases hb : ((s.rows.filter (rowFreshSeen seen)).any
            (fun r => getCell r "Campus ID" == some x)) with
        | false => rfl
        | true => exact absurd hseen (hrep.mp hb).2
      rw [hrepf]
      simp only [Bool.false_eq_true, if_false]
      rw [wRowsGo_first x rest (seen ++ [s])]
      have hseen' : ∃ s0 ∈ seen ++ [s], hasW s0 x = true := by
        obtain ⟨s0, hs0, hw0⟩ := hseen
        exact ⟨s0, List.mem_append.mpr (Or.inl hs0), hw0⟩
      rw [if_pos hseen', if_pos hseen]
    · by_cases hW : hasW s x = true
      · have hrept := hrep.mpr ⟨hW, hseen⟩
        rw [hrept]
        simp only [if_true]
        rw [wRowsGo_first x rest (seen ++ [s])]
        have hseen' : ∃ s0 ∈ seen ++ [s], hasW s0 x = true :=
          ⟨s, List.mem_append.mpr (Or.inr (by simp)), hW⟩
        rw [if_pos hseen', if_neg hseen, List.filter_cons]
        simp [hW]
      · have hrepf : ((s.rows.filter (rowFreshSeen seen)).any
            (fun r => getCell r "Campus ID" == some x)) = false := by
          cases hb : ((s.rows.filter (rowFreshSeen seen)).any
              (fun r => getCell r "Campus ID" == some x)) with
          | false => rfl
          | true => exact absurd (hrep.mp hb).1 hW
        rw [hrepf]
        simp only [Bool.false_eq_true, if_false]
        rw [wRowsGo_first x rest (seen ++ [s])]
        have hseen' : ¬ ∃ s0 ∈ seen ++ [s], hasW s0 x = true := by
          rintro ⟨s0, hs0, hw0⟩
          rcases List.mem_append.mp hs0 with h0 | h0
          · exact hseen ⟨s0, h0, hw0⟩
          · have : s0 = s := by simpa using h0
            subst this
            exact hW hw0
        rw [if_neg hseen', if_neg hseen, List.filter_cons]
        simp only [hW, Bool.false_eq_true, if_false]

/-- C6: the withdrawn lists of the emitted events are exactly the
first-occurrence filter (a row is reported when its trimmed status note is
"Withdrawn" and no earlier successfully read snapshot carried a "Withdrawn"
note for the same id), and on the specification side each student id is
reported in at most one event, namely at the first successfully read
snapshot whose trimmed note for that student is "Withdrawn". -/
theorem c6_withdrawal_once (tl : Timeline) (hOK : ReportOK tl) :
    ((reportEvents tl).map (fun e => e.withdrawn_students) =
      (wRowsGo [] (readables tl)).map (fun l => l.map infoOf)) ∧
    (∀ x : String,
      (((readables tl).zip (wRowsGo [] (readables tl))).filterMap (fun q =>
        if q.2.any (fun r => getCell r "Campus ID" == some x) then some q.1.1
        else none)) =
      (((readables tl).filter (fun p => hasW p.2 x)).head?.map Prod.fst).toList) ∧
    (∀ x : String,
      (((readables tl).zip (wRowsGo [] (readables tl))).filterMap (fun q =>
        if q.2.any (fun r => getCell r "Campus ID" == some x) then some q.1.1
        else none)).length ≤ 1) := by
  have hmain : ((reportEvents tl).map (fun e => e.withdrawn_students) =
      (wRowsGo [] (readables tl)).map (fun l => l.map infoOf)) :=
    c6_go tl [] [] [] hOK (by intro y; simp)
  have hfirst : ∀ x : String,
      (((readables tl).zip (wRowsGo [] (readables tl))).filterMap (fun q =>
        if q.2.any (fun r => getCell r "Campus ID" == some x) then some q.1.1
        else none)) =
      (((readables tl).filter (fun p => hasW p.2 x)).head?.map
        Prod.fst).toList := by
    intro x
    rw [wRowsGo_first x (readables tl) []]
    rw [if_neg (by rintro ⟨s0, hs0, -⟩; simp at hs0)]
  refine ⟨hmain, hfirst, ?_⟩
  intro x
  rw [hfirst x]
  cases ((readables tl).filter (fun p => hasW p.2 x)).head? <;> simp

/-! ## C10: status equality is exact, the withdrawal note is stripped -/

def c10cols : List String :=
  ["Campus ID", "First Name", "Last Name", "Email Address", "Status",
   "Status Notes"]

def c10row (stt note : String) : Row :=
  [("Campus ID", "A"), ("First Name", "F"), ("Last Name", "L"),
   ("Email Address", "E"), ("Status", stt), ("Status Notes", note)]

def c10tl (stt note : String) : Timeline :=
  [("2026-01-01", some ⟨c10cols, [c10row stt note]⟩)]

/-- C10: both pipelines compare the status to "Enrolled" by exact,
case-sensitive, untrimmed string equality — any other status value (for
example one with surrounding whitespace or different capitalisation) is
treated as not enrolled, while the exact value is — whereas the withdrawal
sentinel comparison strips surrounding whitespace from the status note
before comparing it to "Withdrawn". -/
theorem c10_exact_status_stripped_note (stt note : String)
    (h1 : stt ≠ "Enrolled") (h2 : pyStrip note = "Withdrawn") :
    alookup (rosterFold (c10tl stt note)).enrollment_dates "A" = none ∧
    generate_enrollment_report (c10tl stt note) =
      some [⟨"2026-01-01", [], [], [("F", "L", "E")]⟩] ∧
    alookup (rosterFold (c10tl "Enrolled" note)).enrollment_dates "A" =
      some "2026-01-01" := by
  refine ⟨?_, ?_, ?_⟩
  · simp [c10tl, c10row, c10cols, rosterFold, rosterRun, rosterStep,
      rosterRows, rosterRow, recordDrops, snapshotIds, alookup, upsert, h1]
  · simp [c10tl, c10row, c10cols, generate_enrollment_report, reportEvents,
      reportRun, reportStep, reportRows, reportRow, alookup, upsert, infoOf,
      h1, h2]
  · simp [c10tl, c10row, c10cols, rosterFold, rosterRun, rosterStep,
      rosterRows, rosterRow, recordDrops, snapshotIds, alookup, upsert]

/-- Witness for C10 at a whitespace-padded status and note. -/
theorem c10_witness :
    alookup (rosterFold (c10tl " Enrolled" " Withdrawn ")).enrollment_dates
      "A" = none ∧
    generate_enrollment_report (c10tl " Enrolled" " Withdrawn ") =
      some [⟨"2026-01-01", [], [], [("F", "L", "E")]⟩] ∧
    alookup (rosterFold (c10tl "Enrolled" " Withdrawn ")).enrollment_dates
      "A" = some "2026-01-01" :=
  c10_exact_status_stripped_note " Enrolled" " Withdrawn " (by decide)
    (by decide)

/-! ## Concrete witnesses -/

def wSnap1 : Snapshot :=
  ⟨["Campus ID", "Status"], [[("Campus ID", "A"), ("Status", "Enrolled")]]⟩

def wSnap2 : Snapshot :=
  ⟨["Campus ID", "Status"], [[("Campus ID", "B"), ("Status", "Enrolled")]]⟩

/-- A roster timeline with an unreadable middle snapshot; student A drops. -/
def wTl : Timeline :=
  [("2026-01-01", some wSnap1), ("2026-01-02", none),
   ("2026-01-03", some wSnap2)]

def wBaseA : Row := [("Campus ID", "A"), ("Status", "Enrolled")]

/-- Witness for C1 at a concrete timeline: the synthesized output row of the
dropped student A carries A's first-Enrolled date. -/
theorem c1_witness :
    (⟨[("Campus ID", some "A"), ("Status", some "Dropped")],
      some "2026-01-01", some "2026-01-03"⟩ : OutRow).enrollment_date =
      firstEnrolledDate wTl "A" :=
  c1_enrolled_date_first_occurrence wTl "2026-01-03" wSnap2 (by decide)
    (by decide)
    ⟨[("Campus ID", some "A"), ("Status", some "Dropped")],
      some "2026-01-01", some "2026-01-03"⟩ (by decide) "A" (by decide)

/-- Witness for C2 at the same timeline: A's output row carries the date of
the first present-then-absent transition between readable snapshots. -/
theorem c2_witness :
    (⟨[("Campus ID", some "A"), ("Status", some "Dropped")],
      some "2026-01-01", some "2026-01-03"⟩ : OutRow).dropped_date =
      firstDroppedDate wTl "A" :=
  c2_dropped_date_first_transition wTl "2026-01-03" wSnap2 (by decide)
    (by decide)
    ⟨[("Campus ID", some "A"), ("Status", some "Dropped")],
      some "2026-01-01", some "2026-01-03"⟩ (by decide) "A" (by decide)

/-- Witness for C3: the output exists and covers student A, who appears only
before the unreadable snapshot. -/
theorem c3_witness :
    (generate_enrollment_roster wTl).isSome = true ∧
    ((∃ r ∈ (generate_enrollment_roster wTl).getD [],
        r.campusId = some "A") ↔
      (∃ p ∈ readables wTl, "A" ∈ snapshotIds p.2)) :=
  ⟨(c3_coverage wTl "2026-01-03" wSnap2 (by decide) (by decide)).1,
   (c3_coverage wTl "2026-01-03" wSnap2 (by decide) (by decide)).2 "A"⟩

def wRep1 : Snapshot := ⟨c10cols, [c10row "Enrolled" ""]⟩

def wRep2 : Snapshot := ⟨c10cols, []⟩

/-- A report timeline with an unreadable middle snapshot. -/
def wTlR : Timeline :=
  [("2026-01-01", some wRep1), ("2026-01-02", none),
   ("2026-01-03", some wRep2)]

/-- Witness for C4: one event per readable snapshot of a timeline whose
middle snapshot is unreadable. -/
theorem c4_witness :
    (reportEvents wTlR).map (fun e => e.date) =
      (readables wTlR).map Prod.fst :=
  (c4_event_log_shape wTlR (by decide)).2.1

/-- Witness for C5: the first event of the concrete timeline reports exactly
the Enrolled rows absent from the (empty) baseline. -/
theorem c5_witness :
    (⟨"2026-01-01", [("F", "L", "E")], [], []⟩ : DateEvent).new_students =
      newSpec (prevIdsOf none) wRep1 :=
  c5_new_relative_to_previous wTlR (by decide)
    (⟨"2026-01-01", [("F", "L", "E")], [], []⟩,
      (none, ("2026-01-01", wRep1))) (by decide)

def wRepW : Snapshot := ⟨c10cols, [c10row "Enrolled" "Withdrawn"]⟩

/-- A report timeline where the same "Withdrawn" note persists over two
snapshots. -/
def wTlW : Timeline :=
  [("2026-01-01", some wRepW), ("2026-01-02", some wRepW)]

/-- Witness for C6: over a timeline with a persisting "Withdrawn" note, the
withdrawn lists match the first-occurrence specification and student A is
reported at most once. -/
theorem c6_witness :
    ((reportEvents wTlW).map (fun e => e.withdrawn_students) =
      (wRowsGo [] (readables wTlW)).map (fun l => l.map infoOf)) ∧
    ((((readables wTlW).zip (wRowsGo [] (readables wTlW))).filterMap
        (fun q => if q.2.any (fun r => getCell r "Campus ID" == some "A")
                  then some q.1.1 else none)).length ≤ 1) :=
  ⟨(c6_withdrawal_once wTlW (by decide)).1,
   (c6_withdrawal_once wTlW (by decide)).2.2 "A"⟩

/-- Witness for the amended C9 at a concrete timeline. -/
theorem c9_amended_witness :
    ({ cells := setCell (setCell (wSnap2.cols.map
          (fun c => (c, getCell wBaseA c)))
          "Campus ID" (some "A")) "Status" (some "Dropped"),
       enrollment_date := firstEnrolledDate wTl "A",
       dropped_date := firstDroppedDate wTl "A" } : OutRow) ∈
      (generate_enrollment_roster wTl).getD [] :=
  c9_amended_projected_carry wTl "2026-01-03" wSnap2 "A" wBaseA (by decide)
    (by decide) (by decide) (by decide)

end Enrollment
